import Mathlib

/-!
# mem_hook: allocation interposition and per-thread accounting

A shallow embedding of `malloc_hook.cpp`, `thr_storage.h` and `thr_storage.cpp`.

Modelling conventions.

* Pointers and `size_t` values are natural numbers; the null pointer is `0`.
  Unsigned 64-bit arithmetic is written with an explicit `% 2^64`, the
  conversions to `int64_t` and `int` with `toInt64` and `toInt32`.
* The real allocator found by `dlsym(RTLD_NEXT, ..)` is a parameter: its hidden
  state is a value of an arbitrary type `H`, each real function is a state
  transformer on `H`, and `_msize` is a query on `H`.  A cached function
  pointer is an `Option`: `none` is the null pointer of a failed lookup.
* The thread-local `thd` is passed to every hook as its first argument
  (`0` for a thread without descriptor).
* `std::atomic` read-modify-write operations and the bodies guarded by a mutex
  are single steps; a hook call is one step of the calling thread.
-/

namespace MemHook

/-! ## Machine integers -/

/-- The number of values of a `size_t` or `uint64_t`: `2^64`. -/
def SIZE_MOD : Nat := 18446744073709551616

/-- Conversion of an integer to `int64_t` (two's complement, modulo `2^64`). -/
def toInt64 (x : Int) : Int :=
  (x + 9223372036854775808) % 18446744073709551616 - 9223372036854775808

/-- Conversion of an integer to `int` (32 bits, two's complement, modulo `2^32`). -/
def toInt32 (x : Int) : Int :=
  (x + 2147483648) % 4294967296 - 2147483648

/-- The `size_t` subtraction `a - b`, modulo `2^64`. -/
def size_sub (a b : Nat) : Nat :=
  (a % 18446744073709551616 + (18446744073709551616 - b % 18446744073709551616))
    % 18446744073709551616

/-- The `size_t` negation `-a`, modulo `2^64`. -/
def size_neg (a : Nat) : Nat :=
  (18446744073709551616 - a % 18446744073709551616) % 18446744073709551616

/-- The `size_t` product `a * b`, modulo `2^64`. -/
def size_mul (a b : Nat) : Nat :=
  (a * b) % 18446744073709551616

/-! ## Data model (`thr_storage.h`) -/

/-- The per-thread record `struct THD`; both accumulators are `uint64_t`. -/
structure THD where
  thread_id : Nat
  allocated_acc : Nat
  deallocated_acc : Nat
deriving DecidableEq, Repr

/-- The data members of `class ThrStorage`.  `allocate_types_`, `allocate_addrs_`
and `free_addrs_` are the two-dimensional `char` arrays, indexed by row and
column. -/
structure ThrStorage where
  process_mem_used_ : Int
  allocate_num_ : Nat
  allocate_types_ : Nat → Nat → Char
  allocate_addrs_ : Nat → Nat → Char
  free_num_ : Nat
  free_addrs_ : Nat → Nat → Char

/-- The zero-initialised singleton `ThrStorage::get_instance()` before its first use. -/
def ThrStorage.empty : ThrStorage :=
  { process_mem_used_ := 0
    allocate_num_ := 0
    allocate_types_ := fun _ _ => Char.ofNat 0
    allocate_addrs_ := fun _ _ => Char.ofNat 0
    free_num_ := 0
    free_addrs_ := fun _ _ => Char.ofNat 0 }

/-- The digits of `n` in lower-case hexadecimal, at most `fuel` of them. -/
def hex_digits : Nat → Nat → List Char
  | 0, _ => []
  | fuel + 1, n =>
    if n < 16 then [Nat.digitChar n]
    else hex_digits fuel (n / 16) ++ [Nat.digitChar (n % 16)]

/-- What `sprintf(addr, "%p", point)` leaves in `addr` for a 64-bit pointer. -/
def sprintf_p (point : Nat) : List Char :=
  if point = 0 then ['(', 'n', 'i', 'l', ')']
  else '0' :: 'x' :: hex_digits 16 point

/-- The loop `for (i = 0; i < len; i++) a[row][i] = s[i]`. -/
def write_row (a : Nat → Nat → Char) (row : Nat) (s : List Char) : Nat → Nat → Char :=
  (List.range s.length).foldl
    (fun m i => Function.update m row (Function.update (m row) i (s.getD i (Char.ofNat 0)))) a

/-- `ThrStorage::add_process_mem_used`: `fetch_add` on the `int64_t` counter. -/
def ThrStorage.add_process_mem_used (size : Int) (t : ThrStorage) : ThrStorage :=
  { t with process_mem_used_ := toInt64 (t.process_mem_used_ + size) }

/-- `ThrStorage::get_process_mem_used`. -/
def ThrStorage.get_process_mem_used (t : ThrStorage) : Int :=
  t.process_mem_used_

/-- `ThrStorage::add_allocate_addr`. -/
def ThrStorage.add_allocate_addr (type : String) (point : Nat) (t : ThrStorage) : ThrStorage :=
  let addr := sprintf_p point
  if t.allocate_num_ ≥ 10000 then t
  else
    { t with
      allocate_addrs_ := write_row t.allocate_addrs_ t.allocate_num_ addr
      allocate_types_ := write_row t.allocate_types_ t.allocate_num_ type.toList
      allocate_num_ := t.allocate_num_ + 1 }

/-- `ThrStorage::add_free_addr`. -/
def ThrStorage.add_free_addr (point : Nat) (t : ThrStorage) : ThrStorage :=
  let addr := sprintf_p point
  if t.free_num_ ≥ 10000 then t
  else
    { t with
      free_addrs_ := write_row t.free_addrs_ t.free_num_ addr
      free_num_ := t.free_num_ + 1 }

/-- The whole mutable state the hooks act on.
`storage` is the `ThrStorage` singleton, `thd_list_` the file-static
`std::set<THD*>` in iteration (ascending pointer) order, `thds` the `THD`
objects by address, `real_calloc`, `is_gather_calloc_ptr_error` and
`is_init_calloc` the three file-static variables of the `calloc` bootstrap,
`mem` the pointer-sized heap cells by address, and `heap` the state of the
real allocator. -/
structure World (H : Type) where
  storage : ThrStorage
  thd_list_ : List Nat
  thds : Nat → THD
  real_calloc : Option (Nat → Nat → H → Nat × H)
  is_gather_calloc_ptr_error : Bool
  is_init_calloc : Bool
  mem : Nat → Nat
  heap : H

/-- The state at process load, before any constructor has run. -/
def World.init {H : Type} (h : H) : World H :=
  { storage := ThrStorage.empty
    thd_list_ := []
    thds := fun _ => { thread_id := 0, allocated_acc := 0, deallocated_acc := 0 }
    real_calloc := none
    is_gather_calloc_ptr_error := false
    is_init_calloc := false
    mem := fun _ => 0
    heap := h }

/-! ## Registry of thread descriptors (`thr_storage.cpp`) -/

/-- Insertion into the `std::set<THD*>`, kept in ascending order. -/
def set_insert (x : Nat) : List Nat → List Nat
  | [] => [x]
  | y :: ys =>
    if x < y then x :: y :: ys
    else if x = y then y :: ys
    else y :: set_insert x ys

/-- `ThrStorage::add_thread_thd`. -/
def add_thread_thd {H : Type} (thd : Nat) (w : World H) : World H :=
  let hava_thd := decide (thd ∈ w.thd_list_)
  if !hava_thd then { w with thd_list_ := set_insert thd w.thd_list_ } else w

/-- Removal by key from the `std::set<THD*>`: `erase(x)` leaves no element
equal to `x`. -/
def set_erase (x : Nat) (l : List Nat) : List Nat :=
  l.filter (fun y => decide (y ≠ x))

/-- `ThrStorage::remove_thread_thd`. -/
def remove_thread_thd {H : Type} (thd : Nat) (w : World H) : World H :=
  let hava_thd := decide (thd ∈ w.thd_list_)
  if hava_thd then { w with thd_list_ := set_erase thd w.thd_list_ } else w

/-- The assignment `m[k] = v` on a `std::map` kept as a list of entries in
ascending key order. -/
def map_assign (k : Nat) (v : Nat × Nat) : List (Nat × (Nat × Nat)) → List (Nat × (Nat × Nat))
  | [] => [(k, v)]
  | e :: es =>
    if k < e.1 then (k, v) :: e :: es
    else if k = e.1 then (k, v) :: es
    else e :: map_assign k v es

/-- The keys of a `std::map`, in ascending order. -/
def map_keys (m : List (Nat × (Nat × Nat))) : List Nat :=
  m.map Prod.fst

/-- One iteration of the loop of `get_all_threads_mem_info`: the entry for
`x->thread_id` is assigned the pair read by the two `exchange(0)`, which
leave both accumulators of `x` at zero. -/
def snapshot_step {H : Type} (acc : List (Nat × (Nat × Nat)) × World H) (x : Nat) :
    List (Nat × (Nat × Nat)) × World H :=
  (map_assign (acc.2.thds x).thread_id
      ((acc.2.thds x).allocated_acc, (acc.2.thds x).deallocated_acc) acc.1,
   { acc.2 with
     thds := Function.update acc.2.thds x
       { thread_id := (acc.2.thds x).thread_id, allocated_acc := 0, deallocated_acc := 0 } })

/-- `ThrStorage::get_all_threads_mem_info`: the returned map and the state after. -/
def get_all_threads_mem_info {H : Type} (w : World H) : List (Nat × (Nat × Nat)) × World H :=
  w.thd_list_.foldl snapshot_step ([], w)

/-! ## The hooks (`malloc_hook.cpp`) -/

/-- Who makes a call during the run of a start routine: the thread running
the routine, or another thread whose thread-local `thd` is given. -/
inductive Who where
  | self
  | other (thd : Nat)
deriving DecidableEq, Repr

/-- The steps of this library that can happen while a start routine runs:
calls of the hooks and of the two queries by the thread that runs the routine
or by another thread, and the registration (`thr_register`) and removal
(`thr_unregister`) that the `thr_func` of another thread performs on its own
descriptor. -/
inductive Op where
  | malloc (who : Who) (size : Nat)
  | calloc (who : Who) (nmemb size : Nat)
  | realloc (who : Who) (ptr size : Nat)
  | reallocarray (who : Who) (ptr nmemb size : Nat)
  | posix_memalign (who : Who) (memptr alignment size : Nat)
  | aligned_alloc (who : Who) (alignment size : Nat)
  | memalign (who : Who) (alignment size : Nat)
  | valloc (who : Who) (size : Nat)
  | pvalloc (who : Who) (size : Nat)
  | free (who : Who) (ptr : Nat)
  | pthread_create (who : Who) (thread attr start_routine arg : Nat)
  | get_all_threads_mem_info
  | get_process_mem_used
  | thr_register (tmp_thd tid : Nat)
  | thr_unregister (tmp_thd : Nat)
deriving DecidableEq, Repr

/-- What the hooks take from their environment: the function pointers cached
from `dlsym(RTLD_NEXT, ..)`, the usable-size query `_msize`, the address of
the static `calloc_ptr_buffer`, and, for a start routine given by its code
pointer and argument, the calls made while it runs and the value it returns. -/
structure Env (H : Type) where
  real_malloc : Option (Nat → H → Nat × H)
  real_realloc : Option (Nat → Nat → H → Nat × H)
  real_posix_memalign : Option (Nat → Nat → Nat → H → (Int × Nat) × H)
  real_aligned_alloc : Option (Nat → Nat → H → Nat × H)
  real_memalign : Option (Nat → Nat → H → Nat × H)
  real_valloc : Option (Nat → H → Nat × H)
  real_pvalloc : Option (Nat → H → Nat × H)
  real_reallocarray : Option (Nat → Nat → Nat → H → Nat × H)
  real_free : Option (Nat → H → H)
  real_pthread_create : Option (Nat → Nat → Nat → H → Int × H)
  _msize : Nat → H → Nat
  calloc_ptr_buffer : Nat
  start_routine : Nat → Nat → List Op × Nat

/-- The update `thd->allocated_acc.fetch_add(size)` on a `uint64_t`. -/
def fetch_add_allocated {H : Type} (thd size : Nat) (w : World H) : World H :=
  { w with
    thds := Function.update w.thds thd
      { thread_id := (w.thds thd).thread_id
        allocated_acc := ((w.thds thd).allocated_acc + size) % 18446744073709551616
        deallocated_acc := (w.thds thd).deallocated_acc } }

/-- The update `thd->deallocated_acc.fetch_add(size)` on a `uint64_t`. -/
def fetch_add_deallocated {H : Type} (thd size : Nat) (w : World H) : World H :=
  { w with
    thds := Function.update w.thds thd
      { thread_id := (w.thds thd).thread_id
        allocated_acc := (w.thds thd).allocated_acc
        deallocated_acc := ((w.thds thd).deallocated_acc + size) % 18446744073709551616 } }

/-- `default_malloc_size_func(size, is_allocated)` on a thread whose
thread-local descriptor pointer is `thd`. -/
def default_malloc_size_func {H : Type} (thd size : Nat) (is_allocated : Bool)
    (w : World H) : World H :=
  let w1 :=
    if thd ≠ 0 then
      if is_allocated then fetch_add_allocated thd size w
      else fetch_add_deallocated thd size w
    else w
  let wrapper_size : Int :=
    toInt64 (if is_allocated = true then (size % 18446744073709551616 : Nat) else size_neg size)
  { w1 with storage := w1.storage.add_process_mem_used wrapper_size }

/-- The hook `malloc(size)`. -/
def malloc {H : Type} (E : Env H) (thd size : Nat) (w : World H) : Nat × World H :=
  match E.real_malloc with
  | none => (0, w)
  | some real_malloc =>
    let r := real_malloc size w.heap
    let point := r.1
    let w1 := { w with heap := r.2 }
    if point ≠ 0 then
      let w2 := default_malloc_size_func thd (E._msize point w1.heap) true w1
      (point, { w2 with storage := w2.storage.add_allocate_addr "malloc" point })
    else (point, w1)

/-- The hook `calloc(nmemb, size)`. -/
def calloc {H : Type} (E : Env H) (thd nmemb size : Nat) (w : World H) : Nat × World H :=
  match w.real_calloc with
  | none =>
    if w.is_gather_calloc_ptr_error then (0, w)
    else if w.is_init_calloc then (E.calloc_ptr_buffer, w)
    else (0, w)
  | some real_calloc =>
    let r := real_calloc nmemb size w.heap
    let point := r.1
    let w1 := { w with heap := r.2 }
    if point ≠ 0 then
      let w2 := default_malloc_size_func thd (E._msize point w1.heap) true w1
      (point, { w2 with storage := w2.storage.add_allocate_addr "calloc" point })
    else (point, w1)

/-- The part of `my_init_calloc_hook` before the lookup: `is_init_calloc = true`. -/
def my_init_calloc_hook_enter {H : Type} (w : World H) : World H :=
  { w with is_init_calloc := true }

/-- The part of `my_init_calloc_hook` after the lookup returned `tmp_calloc_ptr`. -/
def my_init_calloc_hook_finish {H : Type} (tmp_calloc_ptr : Option (Nat → Nat → H → Nat × H))
    (w : World H) : World H :=
  match tmp_calloc_ptr with
  | some f => { w with real_calloc := some f }
  | none => { w with is_gather_calloc_ptr_error := true }

/-- The calls `calloc(nmemb, size)` a lookup makes while it is in flight. -/
def lookup_callocs {H : Type} (E : Env H) : List (Nat × Nat) → World H → World H
  | [], w => w
  | c :: cs, w => lookup_callocs E cs (calloc E 0 c.1 c.2 w).2

/-- The constructor `my_init_calloc_hook`: the lookup of `calloc` calls
`calloc` with the arguments `inner` and yields `tmp_calloc_ptr`. -/
def my_init_calloc_hook {H : Type} (E : Env H) (inner : List (Nat × Nat))
    (tmp_calloc_ptr : Option (Nat → Nat → H → Nat × H)) (w : World H) : World H :=
  my_init_calloc_hook_finish tmp_calloc_ptr (lookup_callocs E inner (my_init_calloc_hook_enter w))

/-- The hook `realloc(ptr, size)`. -/
def realloc {H : Type} (E : Env H) (thd ptr size : Nat) (w : World H) : Nat × World H :=
  match E.real_realloc with
  | none => (0, w)
  | some real_realloc =>
    if ptr = 0 then malloc E thd size w
    else
      let origin_size := E._msize ptr w.heap
      let r := real_realloc ptr size w.heap
      let new_ptr := r.1
      let w1 := { w with heap := r.2 }
      if new_ptr ≠ 0 then
        if new_ptr ≠ ptr then
          let free_size : Int := toInt32 (size_sub (E._msize new_ptr w1.heap) origin_size)
          if free_size > 0 then
            let w2 := default_malloc_size_func thd free_size.toNat true w1
            (new_ptr, { w2 with storage := w2.storage.add_allocate_addr "realloc" new_ptr })
          else (new_ptr, w1)
        else (new_ptr, w1)
      else (new_ptr, w1)

/-- The hook `posix_memalign(memptr, alignment, size)`; `memptr` is the value
of `*memptr` before the call, and the result is the returned code with the
value of `*memptr` after the call. -/
def posix_memalign {H : Type} (E : Env H) (thd memptr alignment size : Nat) (w : World H) :
    (Int × Nat) × World H :=
  match E.real_posix_memalign with
  | none => ((-1, memptr), w)
  | some real_posix_memalign =>
    let r := real_posix_memalign memptr alignment size w.heap
    let w1 := { w with heap := r.2 }
    if r.1.1 = 0 then
      let w2 := default_malloc_size_func thd (E._msize r.1.2 w1.heap) true w1
      (r.1, { w2 with storage := w2.storage.add_allocate_addr "posix_memalign" r.1.2 })
    else (r.1, w1)

/-- The hook `aligned_alloc(alignment, size)`. -/
def aligned_alloc {H : Type} (E : Env H) (thd alignment size : Nat) (w : World H) :
    Nat × World H :=
  match E.real_aligned_alloc with
  | none => (0, w)
  | some real_aligned_alloc =>
    let r := real_aligned_alloc alignment size w.heap
    let point := r.1
    let w1 := { w with heap := r.2 }
    if point ≠ 0 then
      let w2 := default_malloc_size_func thd (E._msize point w1.heap) true w1
      (point, { w2 with storage := w2.storage.add_allocate_addr "aligned_alloc" point })
    else (point, w1)

/-- The hook `memalign(alignment, size)`. -/
def memalign {H : Type} (E : Env H) (thd alignment size : Nat) (w : World H) : Nat × World H :=
  match E.real_memalign with
  | none => (0, w)
  | some real_memalign =>
    let r := real_memalign alignment size w.heap
    let point := r.1
    let w1 := { w with heap := r.2 }
    if point ≠ 0 then
      let w2 := default_malloc_size_func thd (E._msize point w1.heap) true w1
      (point, { w2 with storage := w2.storage.add_allocate_addr "memalign" point })
    else (point, w1)

/-- The hook `valloc(size)`. -/
def valloc {H : Type} (E : Env H) (thd size : Nat) (w : World H) : Nat × World H :=
  match E.real_valloc with
  | none => (0, w)
  | some real_valloc =>
    let r := real_valloc size w.heap
    let point := r.1
    let w1 := { w with heap := r.2 }
    if point ≠ 0 then
      let w2 := default_malloc_size_func thd (E._msize point w1.heap) true w1
      (point, { w2 with storage := w2.storage.add_allocate_addr "valloc" point })
    else (point, w1)

/-- The hook `pvalloc(size)`. -/
def pvalloc {H : Type} (E : Env H) (thd size : Nat) (w : World H) : Nat × World H :=
  match E.real_pvalloc with
  | none => (0, w)
  | some real_pvalloc =>
    let r := real_pvalloc size w.heap
    let point := r.1
    let w1 := { w with heap := r.2 }
    if point ≠ 0 then
      let w2 := default_malloc_size_func thd (E._msize point w1.heap) true w1
      (point, { w2 with storage := w2.storage.add_allocate_addr "pvalloc" point })
    else (point, w1)

/-- The hook `reallocarray(ptr, nmemb, size)`. -/
def reallocarray {H : Type} (E : Env H) (thd ptr nmemb size : Nat) (w : World H) :
    Nat × World H :=
  match E.real_reallocarray with
  | none => (0, w)
  | some real_reallocarray =>
    if ptr = 0 then malloc E thd (size_mul nmemb size) w
    else
      let origin_size := E._msize ptr w.heap
      let r := real_reallocarray ptr nmemb size w.heap
      let new_ptr := r.1
      let w1 := { w with heap := r.2 }
      if new_ptr ≠ 0 then
        if new_ptr ≠ ptr then
          let free_size : Int := toInt32 (size_sub (E._msize new_ptr w1.heap) origin_size)
          if free_size > 0 then
            let w2 := default_malloc_size_func thd free_size.toNat true w1
            (new_ptr, { w2 with storage := w2.storage.add_allocate_addr "reallocarray" new_ptr })
          else (new_ptr, w1)
        else (new_ptr, w1)
      else (new_ptr, w1)

/-- The hook `free(ptr)`. -/
def free {H : Type} (E : Env H) (thd ptr : Nat) (w : World H) : World H :=
  match E.real_free with
  | none => w
  | some real_free =>
    if ptr ≠ 0 then
      let w1 := default_malloc_size_func thd (E._msize ptr w.heap) false w
      let w2 := { w1 with storage := w1.storage.add_free_addr ptr }
      { w2 with heap := real_free ptr w2.heap }
    else w

/-- The hook `pthread_create(thread, attr, start_routine, arg)`; the real
function is handed `thr_func` and the closure `new_arg`. -/
def pthread_create {H : Type} (E : Env H) (thd thread attr start_routine arg : Nat)
    (w : World H) : Int × World H :=
  match E.real_pthread_create with
  | none => (-1, w)
  | some real_pthread_create =>
    let r := malloc E thd 16 w
    let new_arg := r.1
    let w1 := { r.2 with
      mem := Function.update (Function.update r.2.mem new_arg start_routine) (new_arg + 8) arg }
    let c := real_pthread_create thread attr new_arg w1.heap
    (c.1, { w1 with heap := c.2 })

/-- The registration in `thr_func`: the three stores into `*tmp_thd` and
`add_thread_thd(tmp_thd)`. -/
def thr_register {H : Type} (tmp_thd tid : Nat) (w : World H) : World H :=
  add_thread_thd tmp_thd
    { w with
      thds := Function.update w.thds tmp_thd
        { thread_id := tid, allocated_acc := 0, deallocated_acc := 0 } }

/-- The thread-local `thd` of the thread that makes a call. -/
def Who.thd (self : Nat) : Who → Nat
  | Who.self => self
  | Who.other t => t

/-- The effect of one call on the state; `self` is the thread-local `thd` of
the thread running the start routine. -/
def exec {H : Type} (E : Env H) (self : Nat) : Op → World H → World H
  | Op.malloc who size, w => (malloc E (who.thd self) size w).2
  | Op.calloc who nmemb size, w => (calloc E (who.thd self) nmemb size w).2
  | Op.realloc who ptr size, w => (realloc E (who.thd self) ptr size w).2
  | Op.reallocarray who ptr nmemb size, w => (reallocarray E (who.thd self) ptr nmemb size w).2
  | Op.posix_memalign who memptr alignment size, w =>
    (posix_memalign E (who.thd self) memptr alignment size w).2
  | Op.aligned_alloc who alignment size, w => (aligned_alloc E (who.thd self) alignment size w).2
  | Op.memalign who alignment size, w => (memalign E (who.thd self) alignment size w).2
  | Op.valloc who size, w => (valloc E (who.thd self) size w).2
  | Op.pvalloc who size, w => (pvalloc E (who.thd self) size w).2
  | Op.free who ptr, w => free E (who.thd self) ptr w
  | Op.pthread_create who thread attr start_routine arg, w =>
    (pthread_create E (who.thd self) thread attr start_routine arg w).2
  | Op.get_all_threads_mem_info, w => (get_all_threads_mem_info w).2
  | Op.get_process_mem_used, w => w
  | Op.thr_register tmp_thd tid, w => thr_register tmp_thd tid w
  | Op.thr_unregister tmp_thd, w => remove_thread_thd tmp_thd w

/-- The effect of a sequence of calls, in order. -/
def run {H : Type} (E : Env H) (self : Nat) : List Op → World H → World H
  | [], w => w
  | op :: ops, w => run E self ops (exec E self op w)

/-- The part of `thr_func` before the start routine is called, on the thread
with id `tid`: the pointer `tmp_thd` and the state after.  The thread-local
`thd` is `tmp_thd` from here on (both are null when the allocation failed). -/
def thr_func_enter {H : Type} (E : Env H) (tid : Nat) (w : World H) : Nat × World H :=
  let r := malloc E 0 24 w
  if r.1 ≠ 0 then (r.1, thr_register r.1 tid r.2) else (r.1, r.2)

/-- The part of `thr_func` after the start routine returned. -/
def thr_func_exit {H : Type} (E : Env H) (tmp_thd arg : Nat) (w : World H) : World H :=
  let w1 := free E tmp_thd arg w
  if tmp_thd ≠ 0 then free E tmp_thd tmp_thd (remove_thread_thd tmp_thd w1) else w1

/-- The wrapper `thr_func(arg)` run on the thread with id `tid`. -/
def thr_func {H : Type} (E : Env H) (tid arg : Nat) (w : World H) : Nat × World H :=
  let r := thr_func_enter E tid w
  let business_func := r.2.mem arg
  let business_arg := r.2.mem (arg + 8)
  let b := E.start_routine business_func business_arg
  let w3 := run E r.1 b.1 r.2
  (b.2, thr_func_exit E r.1 arg w3)

/-! ## Sequences of allocation and release calls on one thread -/

/-- The allocating members of the family, which account the whole usable
size of the block they return, and `free`. -/
inductive MemCall where
  | malloc (size : Nat)
  | calloc (nmemb size : Nat)
  | posix_memalign (memptr alignment size : Nat)
  | aligned_alloc (alignment size : Nat)
  | memalign (alignment size : Nat)
  | valloc (size : Nat)
  | pvalloc (size : Nat)
  | free (ptr : Nat)
deriving DecidableEq, Repr

/-- A call made by the thread whose thread-local descriptor pointer is `thd`:
the block the caller receives (null when it receives none) and the state
after the call. -/
def MemCall.call {H : Type} (E : Env H) (thd : Nat) : MemCall → World H → Nat × World H
  | MemCall.malloc size, w => MemHook.malloc E thd size w
  | MemCall.calloc nmemb size, w => MemHook.calloc E thd nmemb size w
  | MemCall.posix_memalign memptr alignment size, w =>
    let r := MemHook.posix_memalign E thd memptr alignment size w
    (if r.1.1 = 0 then r.1.2 else 0, r.2)
  | MemCall.aligned_alloc alignment size, w => MemHook.aligned_alloc E thd alignment size w
  | MemCall.memalign alignment size, w => MemHook.memalign E thd alignment size w
  | MemCall.valloc size, w => MemHook.valloc E thd size w
  | MemCall.pvalloc size, w => MemHook.pvalloc E thd size w
  | MemCall.free ptr, w => (0, MemHook.free E thd ptr w)

/-- The block a call releases (null when it releases none): `free(ptr)`
releases `ptr` when the real `free` was found. -/
def MemCall.released {H : Type} (E : Env H) : MemCall → Nat
  | MemCall.free ptr => if E.real_free.isSome then ptr else 0
  | _ => 0

/-- The state after a sequence of calls of one thread. -/
def run_calls {H : Type} (E : Env H) (thd : Nat) : List MemCall → World H → World H
  | [], w => w
  | c :: cs, w => run_calls E thd cs (c.call E thd w).2

/-- The sum of the usable sizes of the non-null blocks the calls returned,
each measured when it was returned. -/
def allocated_sum {H : Type} (E : Env H) (thd : Nat) : List MemCall → World H → Nat
  | [], _ => 0
  | c :: cs, w =>
    (if (c.call E thd w).1 ≠ 0 then E._msize (c.call E thd w).1 (c.call E thd w).2.heap else 0)
      + allocated_sum E thd cs (c.call E thd w).2

/-- The sum of the usable sizes of the non-null blocks the calls released,
each measured just before its release. -/
def released_sum {H : Type} (E : Env H) (thd : Nat) : List MemCall → World H → Nat
  | [], _ => 0
  | c :: cs, w =>
    (if c.released E ≠ 0 then E._msize (c.released E) w.heap else 0)
      + released_sum E thd cs (c.call E thd w).2

/-! ## Two threads that each allocate a block and free it -/

/-- A call received by a real allocator function. -/
inductive RealCall where
  | malloc (size : Nat)
  | calloc (nmemb size : Nat)
  | realloc (ptr size : Nat)
  | reallocarray (ptr nmemb size : Nat)
  | posix_memalign (alignment size : Nat)
  | aligned_alloc (alignment size : Nat)
  | memalign (alignment size : Nat)
  | valloc (size : Nat)
  | pvalloc (size : Nat)
  | free (ptr : Nat)
  | pthread_create (thread attr new_arg : Nat)
deriving DecidableEq, Repr

/-- The address the recording allocator hands out after `n` calls. -/
def rec_addr (n : Nat) : Nat := 4096 * (n + 1)

/-- An allocator whose state is the list of calls it received.  It hands out
a fresh page-aligned address per call, of usable size 24 or (at odd page
numbers) 40, and `reallocarray` fails when `nmemb * size` does not fit
`size_t`. -/
def rec_env : Env (List RealCall) :=
  { real_malloc := some (fun size h => (rec_addr h.length, h ++ [RealCall.malloc size]))
    real_realloc := some (fun ptr size h => (rec_addr h.length, h ++ [RealCall.realloc ptr size]))
    real_posix_memalign := some (fun _ alignment size h =>
      ((0, rec_addr h.length), h ++ [RealCall.posix_memalign alignment size]))
    real_aligned_alloc := some (fun alignment size h =>
      (rec_addr h.length, h ++ [RealCall.aligned_alloc alignment size]))
    real_memalign := some (fun alignment size h =>
      (rec_addr h.length, h ++ [RealCall.memalign alignment size]))
    real_valloc := some (fun size h => (rec_addr h.length, h ++ [RealCall.valloc size]))
    real_pvalloc := some (fun size h => (rec_addr h.length, h ++ [RealCall.pvalloc size]))
    real_reallocarray := some (fun ptr nmemb size h =>
      (if nmemb * size < 18446744073709551616 then rec_addr h.length else 0,
       h ++ [RealCall.reallocarray ptr nmemb size]))
    real_free := some (fun ptr h => h ++ [RealCall.free ptr])
    real_pthread_create := some (fun thread attr new_arg h =>
      (0, h ++ [RealCall.pthread_create thread attr new_arg]))
    _msize := fun p _ => if p = 0 then 0 else if p / 4096 % 2 = 1 then 40 else 24
    calloc_ptr_buffer := 64
    start_routine := fun _ _ =>
      ([Op.malloc Who.self 100, Op.get_all_threads_mem_info, Op.thr_register 1048576 9,
        Op.malloc (Who.other 1048576) 8, Op.free Who.self 8192, Op.thr_unregister 1048576], 77) }

/-- The real `calloc` of the recording allocator. -/
def rec_calloc (nmemb size : Nat) (h : List RealCall) : Nat × List RealCall :=
  (rec_addr h.length, h ++ [RealCall.calloc nmemb size])

/-- An environment in which every lookup failed. -/
def unresolved_env : Env Unit :=
  { real_malloc := none
    real_realloc := none
    real_posix_memalign := none
    real_aligned_alloc := none
    real_memalign := none
    real_valloc := none
    real_pvalloc := none
    real_reallocarray := none
    real_free := none
    real_pthread_create := none
    _msize := fun _ _ => 0
    calloc_ptr_buffer := 64
    start_routine := fun _ _ => ([], 0) }

/-- An allocator without state whose `realloc` and `reallocarray` always move
the block to address 8192; the usable size of a block is `big` at address
`at_big` and 24 elsewhere. -/
def move_env (at_big big : Nat) : Env Unit :=
  { real_malloc := some (fun _ h => (4096, h))
    real_realloc := some (fun _ _ h => (8192, h))
    real_posix_memalign := none
    real_aligned_alloc := none
    real_memalign := none
    real_valloc := none
    real_pvalloc := none
    real_reallocarray := some (fun _ _ _ h => (8192, h))
    real_free := some (fun _ h => h)
    real_pthread_create := none
    _msize := fun p _ => if p = at_big then big else 24
    calloc_ptr_buffer := 64
    start_routine := fun _ _ => ([], 0) }

/-- The statements every allocating hook runs on the pointer `point` the real
function returned: on a non-null `point` account its usable size and log it
under the name `type`. -/
def account_allocation {H : Type} (E : Env H) (thd : Nat) (type : String) (point : Nat)
    (w : World H) : World H :=
  if point ≠ 0 then
    let w1 := default_malloc_size_func thd (E._msize point w.heap) true w
    { w1 with storage := w1.storage.add_allocate_addr type point }
  else w

/-- The statements `realloc` and `reallocarray` run once the real function
returned `new_ptr`: `int free_size = _msize(new_ptr) - origin_size` and the
accounting guarded by `new_ptr`, `new_ptr != ptr` and `free_size > 0`. -/
def account_resize {H : Type} (E : Env H) (thd : Nat) (type : String) (ptr origin_size new_ptr : Nat)
    (w : World H) : World H :=
  if new_ptr ≠ 0 then
    if new_ptr ≠ ptr then
      let free_size : Int := toInt32 (size_sub (E._msize new_ptr w.heap) origin_size)
      if free_size > 0 then
        let w1 := default_malloc_size_func thd free_size.toNat true w
        { w1 with storage := w1.storage.add_allocate_addr type new_ptr }
      else w
    else w
  else w


/-- What no hook of the allocation family changes between `w` and `w1`: the
registry set, the three variables of the `calloc` bootstrap and the thread id
stored in each descriptor. -/
def Frame {H : Type} (w w1 : World H) : Prop :=
  w1.thd_list_ = w.thd_list_ ∧
  w1.real_calloc = w.real_calloc ∧
  w1.is_gather_calloc_ptr_error = w.is_gather_calloc_ptr_error ∧
  w1.is_init_calloc = w.is_init_calloc ∧
  ∀ q, (w1.thds q).thread_id = (w.thds q).thread_id

/-- The outcome `r` of a hook is the outcome `real` of the real function: the
same value is returned and the real allocator is left in the same state. -/
def same_as_real {H R : Type} (r : R × World H) (real : R × H) : Prop :=
  r.1 = real.1 ∧ r.2.heap = real.2

/-- The call registers or unregisters the descriptor `p`; only the `thr_func`
of the thread that owns `p` does so. -/
def Op.touches (p : Nat) : Op → Bool
  | Op.thr_register tmp_thd _ => decide (tmp_thd = p)
  | Op.thr_unregister tmp_thd => decide (tmp_thd = p)
  | _ => false

/-! ## Theorems -/

theorem malloc_def {H : Type} (E : Env H) (thd size : Nat) (w : World H) :
    malloc E thd size w =
      match E.real_malloc with
      | none => (0, w)
      | some real_malloc =>
        ((real_malloc size w.heap).1,
          account_allocation E thd "malloc" (real_malloc size w.heap).1
            { w with heap := (real_malloc size w.heap).2 }) := by
  unfold malloc account_allocation
  cases E.real_malloc with
  | none => rfl
  | some f =>
    dsimp only
    split_ifs <;> rfl

theorem aligned_alloc_def {H : Type} (E : Env H) (thd alignment size : Nat) (w : World H) :
    aligned_alloc E thd alignment size w =
      match E.real_aligned_alloc with
      | none => (0, w)
      | some real_aligned_alloc =>
        ((real_aligned_alloc alignment size w.heap).1,
          account_allocation E thd "aligned_alloc" (real_aligned_alloc alignment size w.heap).1
            { w with heap := (real_aligned_alloc alignment size w.heap).2 }) := by
  unfold aligned_alloc account_allocation
  cases E.real_aligned_alloc with
  | none => rfl
  | some f =>
    dsimp only
    split_ifs <;> rfl

theorem memalign_def {H : Type} (E : Env H) (thd alignment size : Nat) (w : World H) :
    memalign E thd alignment size w =
      match E.real_memalign with
      | none => (0, w)
      | some real_memalign =>
        ((real_memalign alignment size w.heap).1,
          account_allocation E thd "memalign" (real_memalign alignment size w.heap).1
            { w with heap := (real_memalign alignment size w.heap).2 }) := by
  unfold memalign account_allocation
  cases E.real_memalign with
  | none => rfl
  | some f =>
    dsimp only
    split_ifs <;> rfl

theorem valloc_def {H : Type} (E : Env H) (thd size : Nat) (w : World H) :
    valloc E thd size w =
      match E.real_valloc with
      | none => (0, w)
      | some real_valloc =>
        ((real_valloc size w.heap).1,
          account_allocation E thd "valloc" (real_valloc size w.heap).1
            { w with heap := (real_valloc size w.heap).2 }) := by
  unfold valloc account_allocation
  cases E.real_valloc with
  | none => rfl
  | some f =>
    dsimp only
    split_ifs <;> rfl

theorem pvalloc_def {H : Type} (E : Env H) (thd size : Nat) (w : World H) :
    pvalloc E thd size w =
      match E.real_pvalloc with
      | none => (0, w)
      | some real_pvalloc =>
        ((real_pvalloc size w.heap).1,
          account_allocation E thd "pvalloc" (real_pvalloc size w.heap).1
            { w with heap := (real_pvalloc size w.heap).2 }) := by
  unfold pvalloc account_allocation
  cases E.real_pvalloc with
  | none => rfl
  | some f =>
    dsimp only
    split_ifs <;> rfl

theorem calloc_def {H : Type} (E : Env H) (thd nmemb size : Nat) (w : World H) :
    calloc E thd nmemb size w =
      match w.real_calloc with
      | none =>
        if w.is_gather_calloc_ptr_error then (0, w)
        else if w.is_init_calloc then (E.calloc_ptr_buffer, w)
        else (0, w)
      | some real_calloc =>
        ((real_calloc nmemb size w.heap).1,
          account_allocation E thd "calloc" (real_calloc nmemb size w.heap).1
            { w with heap := (real_calloc nmemb size w.heap).2 }) := by
  unfold calloc account_allocation
  cases w.real_calloc with
  | none => rfl
  | some f =>
    dsimp only
    split_ifs <;> rfl

theorem realloc_def {H : Type} (E : Env H) (thd ptr size : Nat) (w : World H) :
    realloc E thd ptr size w =
      match E.real_realloc with
      | none => (0, w)
      | some real_realloc =>
        if ptr = 0 then malloc E thd size w
        else
          ((real_realloc ptr size w.heap).1,
            account_resize E thd "realloc" ptr (E._msize ptr w.heap) (real_realloc ptr size w.heap).1
              { w with heap := (real_realloc ptr size w.heap).2 }) := by
  unfold realloc account_resize
  cases E.real_realloc with
  | none => rfl
  | some f =>
    dsimp only
    split_ifs <;> rfl

theorem reallocarray_def {H : Type} (E : Env H) (thd ptr nmemb size : Nat) (w : World H) :
    reallocarray E thd ptr nmemb size w =
      match E.real_reallocarray with
      | none => (0, w)
      | some real_reallocarray =>
        if ptr = 0 then malloc E thd (size_mul nmemb size) w
        else
          ((real_reallocarray ptr nmemb size w.heap).1,
            account_resize E thd "reallocarray" ptr (E._msize ptr w.heap)
              (real_reallocarray ptr nmemb size w.heap).1
              { w with heap := (real_reallocarray ptr nmemb size w.heap).2 }) := by
  unfold reallocarray account_resize
  cases E.real_reallocarray with
  | none => rfl
  | some f =>
    dsimp only
    split_ifs <;> rfl

/-- C7: a hook whose cached real function pointer is null returns its failure
value for all arguments (null for `malloc`, `realloc`, `reallocarray`,
`aligned_alloc`, `memalign`, `valloc` and `pvalloc`, also when the original
pointer of `realloc` or `reallocarray` is null; a nonzero code for
`posix_memalign`, which leaves `*memptr` alone, and for `pthread_create`;
nothing for `free`) and leaves the whole state, hence accumulators, counter,
logs and registry set, unchanged. -/
theorem C7_unresolved_hook_fails_without_accounting {H : Type} (E : Env H) (thd : Nat)
    (w : World H) :
    (E.real_malloc = none → ∀ size, malloc E thd size w = (0, w)) ∧
    (E.real_realloc = none → ∀ ptr size, realloc E thd ptr size w = (0, w)) ∧
    (E.real_reallocarray = none →
      ∀ ptr nmemb size, reallocarray E thd ptr nmemb size w = (0, w)) ∧
    (E.real_aligned_alloc = none →
      ∀ alignment size, aligned_alloc E thd alignment size w = (0, w)) ∧
    (E.real_memalign = none → ∀ alignment size, memalign E thd alignment size w = (0, w)) ∧
    (E.real_valloc = none → ∀ size, valloc E thd size w = (0, w)) ∧
    (E.real_pvalloc = none → ∀ size, pvalloc E thd size w = (0, w)) ∧
    (E.real_posix_memalign = none →
      ∀ memptr alignment size,
        (posix_memalign E thd memptr alignment size w).1.1 ≠ 0 ∧
        (posix_memalign E thd memptr alignment size w).1.2 = memptr ∧
        (posix_memalign E thd memptr alignment size w).2 = w) ∧
    (E.real_pthread_create = none →
      ∀ thread attr start_routine arg,
        (pthread_create E thd thread attr start_routine arg w).1 ≠ 0 ∧
        (pthread_create E thd thread attr start_routine arg w).2 = w) ∧
    (E.real_free = none → ∀ ptr, free E thd ptr w = w) := by
  refine ⟨?_, ?_, ?_, ?_, ?_, ?_, ?_, ?_, ?_, ?_⟩
  · intro h size; simp [malloc_def, h]
  · intro h ptr size; simp [realloc_def, h]
  · intro h ptr nmemb size; simp [reallocarray_def, h]
  · intro h alignment size; simp [aligned_alloc_def, h]
  · intro h alignment size; simp [memalign_def, h]
  · intro h size; simp [valloc_def, h]
  · intro h size; simp [pvalloc_def, h]
  · intro h memptr alignment size; simp [posix_memalign, h]
  · intro h thread attr start_routine arg; simp [pthread_create, h]
  · intro h ptr; simp [free, h]

/-- C7 at the environment in which every lookup failed. -/
theorem C7_witness :
    malloc unresolved_env 7 100 (World.init ()) = (0, World.init ()) ∧
    realloc unresolved_env 7 0 100 (World.init ()) = (0, World.init ()) ∧
    free unresolved_env 7 4096 (World.init ()) = World.init () :=
  ⟨(C7_unresolved_hook_fails_without_accounting unresolved_env 7 (World.init ())).1 rfl 100,
   (C7_unresolved_hook_fails_without_accounting unresolved_env 7 (World.init ())).2.1 rfl 0 100,
   (C7_unresolved_hook_fails_without_accounting unresolved_env 7 (World.init ())).2.2.2.2.2.2.2.2.2
     rfl 4096⟩

theorem Frame.rfl {H : Type} (w : World H) : Frame w w :=
  ⟨by simp, by simp, by simp, by simp, by simp⟩

theorem Frame.trans {H : Type} {w w1 w2 : World H} (h1 : Frame w w1) (h2 : Frame w1 w2) :
    Frame w w2 := by
  obtain ⟨a1, b1, c1, d1, e1⟩ := h1
  obtain ⟨a2, b2, c2, d2, e2⟩ := h2
  exact ⟨a2.trans a1, b2.trans b1, c2.trans c1, d2.trans d1, fun q => (e2 q).trans (e1 q)⟩

theorem default_malloc_size_func_frame {H : Type} (thd size : Nat) (b : Bool) (w : World H) :
    Frame w (default_malloc_size_func thd size b w) := by
  unfold Frame default_malloc_size_func fetch_add_allocated fetch_add_deallocated
  refine ⟨?_, ?_, ?_, ?_, ?_⟩
  · split_ifs <;> simp
  · split_ifs <;> simp
  · split_ifs <;> simp
  · split_ifs <;> simp
  · intro q
    by_cases hq : q = thd
    · subst hq; split_ifs <;> simp
    · split_ifs <;> simp [Function.update_noteq hq]

theorem default_malloc_size_func_heap {H : Type} (thd size : Nat) (b : Bool) (w : World H) :
    (default_malloc_size_func thd size b w).heap = w.heap ∧
    (default_malloc_size_func thd size b w).mem = w.mem := by
  unfold default_malloc_size_func fetch_add_allocated fetch_add_deallocated
  split_ifs <;> simp

theorem frame_storage_update {H : Type} (w : World H) (t : ThrStorage) :
    Frame w { w with storage := t } :=
  ⟨rfl, rfl, rfl, rfl, fun _ => rfl⟩

theorem account_allocation_frame {H : Type} (E : Env H) (thd : Nat) (type : String)
    (point : Nat) (w : World H) : Frame w (account_allocation E thd type point w) := by
  unfold account_allocation
  split_ifs
  · exact (default_malloc_size_func_frame _ _ _ _).trans (frame_storage_update _ _)
  · exact Frame.rfl w

theorem account_allocation_heap {H : Type} (E : Env H) (thd : Nat) (type : String)
    (point : Nat) (w : World H) :
    (account_allocation E thd type point w).heap = w.heap ∧
    (account_allocation E thd type point w).mem = w.mem := by
  unfold account_allocation
  split_ifs
  · exact default_malloc_size_func_heap _ _ _ _
  · exact ⟨rfl, rfl⟩

theorem account_resize_frame {H : Type} (E : Env H) (thd : Nat) (type : String)
    (ptr origin_size new_ptr : Nat) (w : World H) :
    Frame w (account_resize E thd type ptr origin_size new_ptr w) := by
  unfold account_resize
  dsimp only
  split_ifs
  · exact (default_malloc_size_func_frame _ _ _ _).trans (frame_storage_update _ _)
  all_goals exact Frame.rfl w

theorem account_resize_heap {H : Type} (E : Env H) (thd : Nat) (type : String)
    (ptr origin_size new_ptr : Nat) (w : World H) :
    (account_resize E thd type ptr origin_size new_ptr w).heap = w.heap ∧
    (account_resize E thd type ptr origin_size new_ptr w).mem = w.mem := by
  unfold account_resize
  dsimp only
  split_ifs
  · exact default_malloc_size_func_heap thd _ true w
  all_goals exact ⟨rfl, rfl⟩

theorem frame_heap_update {H : Type} (w : World H) (h : H) : Frame w { w with heap := h } :=
  ⟨rfl, rfl, rfl, rfl, fun _ => rfl⟩

theorem malloc_frame {H : Type} (E : Env H) (thd size : Nat) (w : World H) :
    Frame w (malloc E thd size w).2 := by
  rw [malloc_def]
  split
  · exact Frame.rfl w
  · exact (frame_heap_update w _).trans (account_allocation_frame _ _ _ _ _)

theorem calloc_frame {H : Type} (E : Env H) (thd nmemb size : Nat) (w : World H) :
    Frame w (calloc E thd nmemb size w).2 := by
  rw [calloc_def]
  split
  · split_ifs <;> exact Frame.rfl w
  · exact (frame_heap_update w _).trans (account_allocation_frame _ _ _ _ _)

theorem realloc_frame {H : Type} (E : Env H) (thd ptr size : Nat) (w : World H) :
    Frame w (realloc E thd ptr size w).2 := by
  rw [realloc_def]
  split
  · exact Frame.rfl w
  · split_ifs
    · exact malloc_frame _ _ _ _
    · exact (frame_heap_update w _).trans (account_resize_frame _ _ _ _ _ _ _)

theorem reallocarray_frame {H : Type} (E : Env H) (thd ptr nmemb size : Nat) (w : World H) :
    Frame w (reallocarray E thd ptr nmemb size w).2 := by
  rw [reallocarray_def]
  split
  · exact Frame.rfl w
  · split_ifs
    · exact malloc_frame _ _ _ _
    · exact (frame_heap_update w _).trans (account_resize_frame _ _ _ _ _ _ _)

theorem posix_memalign_frame {H : Type} (E : Env H) (thd memptr alignment size : Nat)
    (w : World H) : Frame w (posix_memalign E thd memptr alignment size w).2 := by
  unfold posix_memalign
  split
  · exact Frame.rfl w
  · dsimp only
    split_ifs
    · exact ((frame_heap_update w _).trans (default_malloc_size_func_frame _ _ _ _)).trans
        (frame_storage_update _ _)
    · exact frame_heap_update w _

theorem aligned_alloc_frame {H : Type} (E : Env H) (thd alignment size : Nat) (w : World H) :
    Frame w (aligned_alloc E thd alignment size w).2 := by
  rw [aligned_alloc_def]
  split
  · exact Frame.rfl w
  · exact (frame_heap_update w _).trans (account_allocation_frame _ _ _ _ _)

theorem memalign_frame {H : Type} (E : Env H) (thd alignment size : Nat) (w : World H) :
    Frame w (memalign E thd alignment size w).2 := by
  rw [memalign_def]
  split
  · exact Frame.rfl w
  · exact (frame_heap_update w _).trans (account_allocation_frame _ _ _ _ _)

theorem valloc_frame {H : Type} (E : Env H) (thd size : Nat) (w : World H) :
    Frame w (valloc E thd size w).2 := by
  rw [valloc_def]
  split
  · exact Frame.rfl w
  · exact (frame_heap_update w _).trans (account_allocation_frame _ _ _ _ _)

theorem pvalloc_frame {H : Type} (E : Env H) (thd size : Nat) (w : World H) :
    Frame w (pvalloc E thd size w).2 := by
  rw [pvalloc_def]
  split
  · exact Frame.rfl w
  · exact (frame_heap_update w _).trans (account_allocation_frame _ _ _ _ _)

theorem free_frame {H : Type} (E : Env H) (thd ptr : Nat) (w : World H) :
    Frame w (free E thd ptr w) := by
  unfold free
  split
  · exact Frame.rfl w
  · split_ifs
    · exact ((default_malloc_size_func_frame _ _ _ _).trans (frame_storage_update _ _)).trans
        (frame_heap_update _ _)
    · exact Frame.rfl w

theorem pthread_create_frame {H : Type} (E : Env H) (thd thread attr start_routine arg : Nat)
    (w : World H) : Frame w (pthread_create E thd thread attr start_routine arg w).2 := by
  unfold pthread_create
  split
  · exact Frame.rfl w
  · exact ((malloc_frame E thd 16 w).trans ⟨rfl, rfl, rfl, rfl, fun _ => rfl⟩).trans
      (frame_heap_update _ _)

theorem snapshot_fold_fields {H : Type} (l : List Nat) (acc : List (Nat × (Nat × Nat)) × World H) :
    (l.foldl snapshot_step acc).2.thd_list_ = acc.2.thd_list_ ∧
    (l.foldl snapshot_step acc).2.real_calloc = acc.2.real_calloc ∧
    (l.foldl snapshot_step acc).2.is_gather_calloc_ptr_error = acc.2.is_gather_calloc_ptr_error ∧
    (l.foldl snapshot_step acc).2.is_init_calloc = acc.2.is_init_calloc ∧
    (∀ q, ((l.foldl snapshot_step acc).2.thds q).thread_id = (acc.2.thds q).thread_id) ∧
    (l.foldl snapshot_step acc).2.storage = acc.2.storage ∧
    (l.foldl snapshot_step acc).2.heap = acc.2.heap ∧
    (l.foldl snapshot_step acc).2.mem = acc.2.mem := by
  induction l generalizing acc with
  | nil => simp
  | cons x xs ih =>
    simp only [List.foldl_cons]
    obtain ⟨h1, h2, h3, h4, h5, h6, h7, h8⟩ := ih (snapshot_step acc x)
    refine ⟨h1, h2, h3, h4, ?_, h6, h7, h8⟩
    intro q
    rw [h5 q]
    by_cases hq : q = x
    · subst hq; simp [snapshot_step]
    · simp [snapshot_step, Function.update_noteq hq]

theorem get_all_threads_mem_info_frame {H : Type} (w : World H) :
    Frame w (get_all_threads_mem_info w).2 := by
  obtain ⟨h1, h2, h3, h4, h5, _⟩ := snapshot_fold_fields w.thd_list_ ([], w)
  exact ⟨h1, h2, h3, h4, h5⟩

theorem Frame.boot {H : Type} {w w1 : World H} (h : Frame w w1) :
    w1.real_calloc = w.real_calloc ∧
    w1.is_gather_calloc_ptr_error = w.is_gather_calloc_ptr_error ∧
    w1.is_init_calloc = w.is_init_calloc :=
  ⟨h.2.1, h.2.2.1, h.2.2.2.1⟩

theorem exec_boot {H : Type} (E : Env H) (self : Nat) (op : Op) (w : World H) :
    (exec E self op w).real_calloc = w.real_calloc ∧
    (exec E self op w).is_gather_calloc_ptr_error = w.is_gather_calloc_ptr_error ∧
    (exec E self op w).is_init_calloc = w.is_init_calloc := by
  cases op with
  | malloc who size => exact (malloc_frame E _ size w).boot
  | calloc who nmemb size => exact (calloc_frame E _ nmemb size w).boot
  | realloc who ptr size => exact (realloc_frame E _ ptr size w).boot
  | reallocarray who ptr nmemb size => exact (reallocarray_frame E _ ptr nmemb size w).boot
  | posix_memalign who memptr alignment size =>
    exact (posix_memalign_frame E _ memptr alignment size w).boot
  | aligned_alloc who alignment size => exact (aligned_alloc_frame E _ alignment size w).boot
  | memalign who alignment size => exact (memalign_frame E _ alignment size w).boot
  | valloc who size => exact (valloc_frame E _ size w).boot
  | pvalloc who size => exact (pvalloc_frame E _ size w).boot
  | free who ptr => exact (free_frame E _ ptr w).boot
  | pthread_create who thread attr start_routine arg =>
    exact (pthread_create_frame E _ thread attr start_routine arg w).boot
  | get_all_threads_mem_info => exact (get_all_threads_mem_info_frame w).boot
  | get_process_mem_used => exact ⟨rfl, rfl, rfl⟩
  | thr_register tmp_thd tid =>
    simp only [exec, thr_register, add_thread_thd]
    split_ifs <;> exact ⟨rfl, rfl, rfl⟩
  | thr_unregister tmp_thd =>
    simp only [exec, remove_thread_thd]
    split_ifs <;> exact ⟨rfl, rfl, rfl⟩

theorem run_boot {H : Type} (E : Env H) (self : Nat) (ops : List Op) (w : World H) :
    (run E self ops w).real_calloc = w.real_calloc ∧
    (run E self ops w).is_gather_calloc_ptr_error = w.is_gather_calloc_ptr_error ∧
    (run E self ops w).is_init_calloc = w.is_init_calloc := by
  induction ops generalizing w with
  | nil => exact ⟨rfl, rfl, rfl⟩
  | cons op ops ih =>
    obtain ⟨a, b, c⟩ := ih (exec E self op w)
    obtain ⟨a1, b1, c1⟩ := exec_boot E self op w
    exact ⟨a.trans a1, b.trans b1, c.trans c1⟩

theorem lookup_callocs_in_flight {H : Type} (E : Env H) (inner : List (Nat × Nat)) (w : World H)
    (h1 : w.real_calloc = none) (h2 : w.is_gather_calloc_ptr_error = false) :
    lookup_callocs E inner w = w := by
  induction inner with
  | nil => rfl
  | cons c cs ih =>
    have : (calloc E 0 c.1 c.2 w).2 = w := by
      rw [calloc_def]
      rw [h1]
      simp only [h2]
      split_ifs <;> rfl
    simp only [lookup_callocs, this, ih]

/-- C6: `calloc` follows the bootstrap protocol as a function of `real_calloc`,
`is_init_calloc` and `is_gather_calloc_ptr_error`.  With `real_calloc` null:
it returns null while `is_init_calloc` is unset, the static `calloc_ptr_buffer`
while the lookup is in flight, and null once the error is recorded; in these
three cases the state is left unchanged.  With `real_calloc` set it returns
the result of the real `calloc`, so the buffer only if the real function
returned that address.  These are the states of the protocol: the load state
answers null, the state inside `my_init_calloc_hook` answers the buffer, and
after the hook finished every later call, whatever calls came in between,
answers null after a failed lookup and the real result after a successful one. -/
theorem C6_calloc_bootstrap_protocol {H : Type} (E : Env H) (thd nmemb size : Nat)
    (w : World H) (h : H) :
    (w.real_calloc = none → w.is_gather_calloc_ptr_error = false → w.is_init_calloc = false →
      calloc E thd nmemb size w = (0, w)) ∧
    (w.real_calloc = none → w.is_gather_calloc_ptr_error = false → w.is_init_calloc = true →
      calloc E thd nmemb size w = (E.calloc_ptr_buffer, w)) ∧
    (w.real_calloc = none → w.is_gather_calloc_ptr_error = true →
      calloc E thd nmemb size w = (0, w)) ∧
    (∀ f, w.real_calloc = some f →
      (calloc E thd nmemb size w).1 = (f nmemb size w.heap).1 ∧
      (calloc E thd nmemb size w).2.heap = (f nmemb size w.heap).2 ∧
      ((f nmemb size w.heap).1 ≠ E.calloc_ptr_buffer →
        (calloc E thd nmemb size w).1 ≠ E.calloc_ptr_buffer)) ∧
    (calloc E thd nmemb size (World.init h) = (0, World.init h)) ∧
    (calloc E thd nmemb size (my_init_calloc_hook_enter (World.init h))
      = (E.calloc_ptr_buffer, my_init_calloc_hook_enter (World.init h))) ∧
    (∀ inner self ops,
      calloc E thd nmemb size (run E self ops (my_init_calloc_hook E inner none (World.init h)))
        = (0, run E self ops (my_init_calloc_hook E inner none (World.init h)))) ∧
    (∀ inner f self ops,
      (calloc E thd nmemb size
          (run E self ops (my_init_calloc_hook E inner (some f) (World.init h)))).1
        = (f nmemb size
            (run E self ops (my_init_calloc_hook E inner (some f) (World.init h))).heap).1) := by
  refine ⟨?_, ?_, ?_, ?_, ?_, ?_, ?_, ?_⟩
  · intro h1 h2 h3; simp [calloc_def, h1, h2, h3]
  · intro h1 h2 h3; simp [calloc_def, h1, h2, h3]
  · intro h1 h2; simp [calloc_def, h1, h2]
  · intro f hf
    have h1 : (calloc E thd nmemb size w).1 = (f nmemb size w.heap).1 := by
      simp [calloc_def, hf]
    refine ⟨h1, ?_, fun hne => by rw [h1]; exact hne⟩
    simp only [calloc_def, hf]
    exact (account_allocation_heap _ _ _ _ _).1
  · simp [calloc_def, World.init]
  · simp [calloc_def, World.init, my_init_calloc_hook_enter]
  · intro inner self ops
    have hl := lookup_callocs_in_flight E inner (my_init_calloc_hook_enter (World.init h))
      rfl rfl
    obtain ⟨a, b, _⟩ := run_boot E self ops (my_init_calloc_hook E inner none (World.init h))
    have a1 : (my_init_calloc_hook E inner none (World.init h)).real_calloc = none := by
      rw [my_init_calloc_hook, hl]
      rfl
    have b1 : (my_init_calloc_hook E inner none (World.init h)).is_gather_calloc_ptr_error
        = true := by
      rw [my_init_calloc_hook, hl]
      rfl
    rw [a1] at a
    rw [b1] at b
    simp [calloc_def, a, b]
  · intro inner f self ops
    obtain ⟨a, _, _⟩ :=
      run_boot E self ops (my_init_calloc_hook E inner (some f) (World.init h))
    have a1 : (my_init_calloc_hook E inner (some f) (World.init h)).real_calloc = some f := by
      simp [my_init_calloc_hook, my_init_calloc_hook_finish]
    rw [a1] at a
    simp [calloc_def, a]

/-- C6 at the recording allocator: null before the constructor, the buffer
during the lookup, the first real block afterwards. -/
theorem C6_witness :
    calloc rec_env 0 1 32 (World.init []) = (0, World.init []) ∧
    calloc rec_env 0 1 32 (my_init_calloc_hook_enter (World.init []))
      = (64, my_init_calloc_hook_enter (World.init [])) ∧
    (calloc rec_env 0 1 32
      (run rec_env 0 [] (my_init_calloc_hook rec_env [(1, 32)] (some rec_calloc) (World.init [])))).1
      = 4096 :=
  ⟨(C6_calloc_bootstrap_protocol rec_env 0 1 32 (World.init []) []).2.2.2.2.1,
   (C6_calloc_bootstrap_protocol rec_env 0 1 32 (World.init []) []).2.2.2.2.2.1,
   (C6_calloc_bootstrap_protocol rec_env 0 1 32 (World.init []) []).2.2.2.2.2.2.2
     [(1, 32)] rec_calloc 0 []⟩

theorem malloc_same_as_real {H : Type} (E : Env H) (thd size : Nat) (w : World H)
    (f : Nat → H → Nat × H) (hf : E.real_malloc = some f) :
    same_as_real (malloc E thd size w) (f size w.heap) := by
  unfold same_as_real
  simp only [malloc_def, hf]
  exact ⟨trivial, (account_allocation_heap _ _ _ _ _).1⟩

/-- C10, amended: a hook whose real function was found hands the caller's
arguments to that function unchanged, returns exactly its result and leaves
the real allocator in the state that call produced, for `malloc`, `calloc`,
`posix_memalign`, `aligned_alloc`, `memalign`, `valloc` and `pvalloc` with all
arguments, for `realloc` and `reallocarray` with a non-null original pointer,
and for `free` of a non-null pointer.  With a null original pointer the call
is served by the `malloc` hook instead: `realloc(NULL, size)` is
`malloc(size)`, and `reallocarray(NULL, nmemb, size)` is `malloc(nmemb * size)`
when the product fits `size_t`. -/
theorem C10_hooks_forward_to_real {H : Type} (E : Env H) (thd : Nat) (w : World H) :
    (∀ f, E.real_malloc = some f → ∀ size,
      same_as_real (malloc E thd size w) (f size w.heap)) ∧
    (∀ f, w.real_calloc = some f → ∀ nmemb size,
      same_as_real (calloc E thd nmemb size w) (f nmemb size w.heap)) ∧
    (∀ f, E.real_realloc = some f → ∀ ptr size, ptr ≠ 0 →
      same_as_real (realloc E thd ptr size w) (f ptr size w.heap)) ∧
    (∀ f, E.real_reallocarray = some f → ∀ ptr nmemb size, ptr ≠ 0 →
      same_as_real (reallocarray E thd ptr nmemb size w) (f ptr nmemb size w.heap)) ∧
    (∀ f, E.real_posix_memalign = some f → ∀ memptr alignment size,
      same_as_real (posix_memalign E thd memptr alignment size w)
        (f memptr alignment size w.heap)) ∧
    (∀ f, E.real_aligned_alloc = some f → ∀ alignment size,
      same_as_real (aligned_alloc E thd alignment size w) (f alignment size w.heap)) ∧
    (∀ f, E.real_memalign = some f → ∀ alignment size,
      same_as_real (memalign E thd alignment size w) (f alignment size w.heap)) ∧
    (∀ f, E.real_valloc = some f → ∀ size,
      same_as_real (valloc E thd size w) (f size w.heap)) ∧
    (∀ f, E.real_pvalloc = some f → ∀ size,
      same_as_real (pvalloc E thd size w) (f size w.heap)) ∧
    (∀ f, E.real_free = some f → ∀ ptr, ptr ≠ 0 →
      (free E thd ptr w).heap = f ptr w.heap) ∧
    (E.real_realloc ≠ none → ∀ size, realloc E thd 0 size w = malloc E thd size w) ∧
    (E.real_reallocarray ≠ none → ∀ nmemb size, nmemb * size < 18446744073709551616 →
      reallocarray E thd 0 nmemb size w = malloc E thd (nmemb * size) w) := by
  refine ⟨?_, ?_, ?_, ?_, ?_, ?_, ?_, ?_, ?_, ?_, ?_, ?_⟩
  · intro f hf size
    exact malloc_same_as_real E thd size w f hf
  · intro f hf nmemb size
    unfold same_as_real
    simp only [calloc_def, hf]
    exact ⟨trivial, (account_allocation_heap _ _ _ _ _).1⟩
  · intro f hf ptr size hptr
    unfold same_as_real
    simp only [realloc_def, hf, hptr, if_false]
    exact ⟨trivial, (account_resize_heap _ _ _ _ _ _ _).1⟩
  · intro f hf ptr nmemb size hptr
    unfold same_as_real
    simp only [reallocarray_def, hf, hptr, if_false]
    exact ⟨trivial, (account_resize_heap _ _ _ _ _ _ _).1⟩
  · intro f hf memptr alignment size
    unfold same_as_real
    simp only [posix_memalign, hf]
    split_ifs
    · exact ⟨rfl, (default_malloc_size_func_heap _ _ _ _).1⟩
    · exact ⟨rfl, rfl⟩
  · intro f hf alignment size
    unfold same_as_real
    simp only [aligned_alloc_def, hf]
    exact ⟨trivial, (account_allocation_heap _ _ _ _ _).1⟩
  · intro f hf alignment size
    unfold same_as_real
    simp only [memalign_def, hf]
    exact ⟨trivial, (account_allocation_heap _ _ _ _ _).1⟩
  · intro f hf size
    unfold same_as_real
    simp only [valloc_def, hf]
    exact ⟨trivial, (account_allocation_heap _ _ _ _ _).1⟩
  · intro f hf size
    unfold same_as_real
    simp only [pvalloc_def, hf]
    exact ⟨trivial, (account_allocation_heap _ _ _ _ _).1⟩
  · intro f hf ptr hptr
    simp only [free, hf, hptr, ne_eq, not_false_eq_true, if_true]
    rw [(default_malloc_size_func_heap _ _ _ _).1]
  · intro hne size
    cases hf : E.real_realloc with
    | none => exact absurd hf hne
    | some f => simp [realloc_def, hf]
  · intro hne nmemb size hlt
    cases hf : E.real_reallocarray with
    | none => exact absurd hf hne
    | some f => simp [reallocarray_def, hf, size_mul, Nat.mod_eq_of_lt hlt]

/-- C10 at the recording allocator: `realloc` of the block at 4096 reaches the
real `realloc` with the same arguments. -/
theorem C10_witness :
    (realloc rec_env 0 4096 32 (World.init [])).1 = 4096 ∧
    (realloc rec_env 0 4096 32 (World.init [])).2.heap = [RealCall.realloc 4096 32] :=
  (C10_hooks_forward_to_real rec_env 0 (World.init [])).2.2.1 _ rfl 4096 32 (by decide)

/-- C10 as stated fails at the recording allocator: `reallocarray(NULL, 2^32,
2^32)` returns a block where the real `reallocarray` reports failure, and
`realloc(NULL, 32)` leaves the allocator in another state than the real
`realloc` (it received `malloc(32)`). -/
theorem C10_counterexample :
    ¬ (∀ f, rec_env.real_reallocarray = some f →
        same_as_real (reallocarray rec_env 0 0 4294967296 4294967296 (World.init []))
          (f 0 4294967296 4294967296 (World.init []).heap)) ∧
    ¬ (∀ f, rec_env.real_realloc = some f →
        same_as_real (realloc rec_env 0 0 32 (World.init [])) (f 0 32 (World.init []).heap)) := by
  constructor
  · intro h
    have h1 := (h _ rfl).1
    revert h1
    decide
  · intro h
    have h1 := (h _ rfl).2
    revert h1
    decide

/-- C4 at a failing input: a thread with descriptor 12288 resizes the block at
4096 (usable size 24) and the real function moves it to 8192 (usable size
3221225496).  The usable size grew by 3221225472, which as an `int` is
negative, so neither the allocated accumulator nor the process counter moves;
the same holds for `reallocarray`. -/
theorem C4_realloc_growth_of_3GiB_not_accounted :
    (realloc (move_env 8192 3221225496) 12288 4096 3221225472 (World.init ())).1 = 8192 ∧
    (move_env 8192 3221225496)._msize 4096 () = 24 ∧
    (move_env 8192 3221225496)._msize 8192 () = 3221225496 ∧
    ((realloc (move_env 8192 3221225496) 12288 4096 3221225472 (World.init ())).2.thds
      12288).allocated_acc = 0 ∧
    (realloc (move_env 8192 3221225496) 12288 4096 3221225472
      (World.init ())).2.storage.get_process_mem_used = 0 ∧
    ((reallocarray (move_env 8192 3221225496) 12288 4096 3 1073741824 (World.init ())).2.thds
      12288).allocated_acc = 0 ∧
    (reallocarray (move_env 8192 3221225496) 12288 4096 3 1073741824
      (World.init ())).2.storage.get_process_mem_used = 0 := by
  decide

/-- C5 at a failing input: a thread with descriptor 12288 resizes the block at
4096 (usable size 3221225496) and the real function moves it to 8192 (usable
size 24).  The usable size shrank by 3221225472, which as an `int` is
1073741824, so the allocated accumulator and the process counter grow by
1073741824 and an allocate-log entry is appended; the same holds for
`reallocarray`. -/
theorem C5_realloc_shrink_by_3GiB_accounted_as_growth :
    (realloc (move_env 4096 3221225496) 12288 4096 16 (World.init ())).1 = 8192 ∧
    (move_env 4096 3221225496)._msize 4096 () = 3221225496 ∧
    (move_env 4096 3221225496)._msize 8192 () = 24 ∧
    ((realloc (move_env 4096 3221225496) 12288 4096 16 (World.init ())).2.thds
      12288).allocated_acc = 1073741824 ∧
    (realloc (move_env 4096 3221225496) 12288 4096 16
      (World.init ())).2.storage.get_process_mem_used = 1073741824 ∧
    (realloc (move_env 4096 3221225496) 12288 4096 16
      (World.init ())).2.storage.allocate_num_ = 1 ∧
    ((reallocarray (move_env 4096 3221225496) 12288 4096 1 16 (World.init ())).2.thds
      12288).allocated_acc = 1073741824 ∧
    (reallocarray (move_env 4096 3221225496) 12288 4096 1 16
      (World.init ())).2.storage.allocate_num_ = 1 := by
  decide

theorem mem_set_insert (x y : Nat) (l : List Nat) : y ∈ set_insert x l ↔ y = x ∨ y ∈ l := by
  induction l with
  | nil => simp [set_insert]
  | cons z zs ih =>
    unfold set_insert
    split_ifs with h1 h2
    · simp
    · subst h2
      simp
    · simp only [List.mem_cons, ih]
      tauto

theorem map_keys_assign (k : Nat) (v : Nat × Nat) (m : List (Nat × (Nat × Nat))) :
    map_keys (map_assign k v m) = set_insert k (map_keys m) := by
  induction m with
  | nil => simp [map_assign, map_keys, set_insert]
  | cons e es ih =>
    unfold map_keys at ih ⊢
    unfold map_assign
    simp only [List.map_cons, set_insert]
    split_ifs with h1 h2
    · simp
    · simp [h2]
    · simp [ih]

theorem snapshot_fold_keys {H : Type} (l : List Nat) (acc : List (Nat × (Nat × Nat)) × World H) :
    map_keys (l.foldl snapshot_step acc).1
      = l.foldl (fun ks x => set_insert (acc.2.thds x).thread_id ks) (map_keys acc.1) := by
  induction l generalizing acc with
  | nil => rfl
  | cons x xs ih =>
    simp only [List.foldl_cons]
    rw [ih (snapshot_step acc x)]
    have h1 : map_keys (snapshot_step acc x).1
        = set_insert (acc.2.thds x).thread_id (map_keys acc.1) := by
      simp [snapshot_step, map_keys_assign]
    have h2 : (fun ks y => set_insert ((snapshot_step acc x).2.thds y).thread_id ks)
        = (fun ks y => set_insert (acc.2.thds y).thread_id ks) := by
      funext ks y
      by_cases hy : y = x
      · subst hy; simp [snapshot_step]
      · simp [snapshot_step, Function.update_noteq hy]
    rw [h1, h2]

theorem mem_fold_set_insert (f : Nat → Nat) (l : List Nat) (ks : List Nat) (k : Nat) :
    k ∈ l.foldl (fun ks x => set_insert (f x) ks) ks ↔ k ∈ ks ∨ ∃ x ∈ l, f x = k := by
  induction l generalizing ks with
  | nil => simp
  | cons y ys ih =>
    simp only [List.foldl_cons, ih, mem_set_insert, List.mem_cons]
    constructor
    · rintro ((h | h) | ⟨x, hx, h⟩)
      · exact Or.inr ⟨y, Or.inl rfl, h.symm⟩
      · exact Or.inl h
      · exact Or.inr ⟨x, Or.inr hx, h⟩
    · rintro (h | ⟨x, hx | hx, h⟩)
      · exact Or.inl (Or.inr h)
      · subst hx; exact Or.inl (Or.inl h.symm)
      · exact Or.inr ⟨x, hx, h⟩

theorem snapshot_keys_iff {H : Type} (w : World H) (k : Nat) :
    k ∈ map_keys (get_all_threads_mem_info w).1 ↔ ∃ x ∈ w.thd_list_, (w.thds x).thread_id = k := by
  unfold get_all_threads_mem_info
  rw [snapshot_fold_keys, mem_fold_set_insert]
  simp [map_keys]

theorem default_malloc_size_func_thds_true {H : Type} (thd size : Nat) (w : World H)
    (hthd : thd ≠ 0) :
    ((default_malloc_size_func thd size true w).thds thd).allocated_acc
      = ((w.thds thd).allocated_acc + size) % 18446744073709551616 ∧
    ((default_malloc_size_func thd size true w).thds thd).deallocated_acc
      = (w.thds thd).deallocated_acc := by
  simp [default_malloc_size_func, fetch_add_allocated, hthd]

theorem default_malloc_size_func_thds_false {H : Type} (thd size : Nat) (w : World H)
    (hthd : thd ≠ 0) :
    ((default_malloc_size_func thd size false w).thds thd).allocated_acc
      = (w.thds thd).allocated_acc ∧
    ((default_malloc_size_func thd size false w).thds thd).deallocated_acc
      = ((w.thds thd).deallocated_acc + size) % 18446744073709551616 := by
  simp [default_malloc_size_func, fetch_add_deallocated, hthd]

theorem account_allocation_thds {H : Type} (E : Env H) (thd : Nat) (type : String) (point : Nat)
    (w : World H) (hthd : thd ≠ 0) :
    ((account_allocation E thd type point w).thds thd).allocated_acc
      = (if point ≠ 0 then ((w.thds thd).allocated_acc + E._msize point w.heap)
          % 18446744073709551616 else (w.thds thd).allocated_acc) ∧
    ((account_allocation E thd type point w).thds thd).deallocated_acc
      = (w.thds thd).deallocated_acc := by
  unfold account_allocation
  split_ifs with hp
  · exact default_malloc_size_func_thds_true thd _ w hthd
  · exact ⟨rfl, rfl⟩

theorem alloc_shape_acc {H : Type} (E : Env H) (thd : Nat) (type : String) (w : World H)
    (r : Nat × H) (hthd : thd ≠ 0) :
    ((account_allocation E thd type r.1 { w with heap := r.2 }).thds thd).allocated_acc
        % 18446744073709551616
      = ((w.thds thd).allocated_acc
          + (if r.1 ≠ 0 then
              E._msize r.1 (account_allocation E thd type r.1 { w with heap := r.2 }).heap
             else 0)) % 18446744073709551616 ∧
    ((account_allocation E thd type r.1 { w with heap := r.2 }).thds thd).deallocated_acc
      = (w.thds thd).deallocated_acc ∧
    ((w.thds thd).allocated_acc < 18446744073709551616 →
      ((account_allocation E thd type r.1 { w with heap := r.2 }).thds thd).allocated_acc
        < 18446744073709551616) := by
  obtain ⟨h1, h2⟩ := account_allocation_thds E thd type r.1 { w with heap := r.2 } hthd
  rw [(account_allocation_heap E thd type r.1 { w with heap := r.2 }).1, h1, h2]
  refine ⟨?_, rfl, ?_⟩
  · split_ifs
    · simp
    · simp
  · intro hlt
    split_ifs
    · exact Nat.mod_lt _ (by decide)
    · exact hlt

theorem MemCall.call_acc {H : Type} (E : Env H) (thd : Nat) (c : MemCall) (w : World H)
    (hthd : thd ≠ 0) (h0 : ∀ h, E._msize 0 h = 0)
    (hboot : w.real_calloc = none → w.is_init_calloc = true →
      w.is_gather_calloc_ptr_error = true) :
    ((c.call E thd w).2.thds thd).allocated_acc % 18446744073709551616
      = ((w.thds thd).allocated_acc
          + (if (c.call E thd w).1 ≠ 0 then E._msize (c.call E thd w).1 (c.call E thd w).2.heap
             else 0)) % 18446744073709551616 ∧
    ((c.call E thd w).2.thds thd).deallocated_acc % 18446744073709551616
      = ((w.thds thd).deallocated_acc
          + (if c.released E ≠ 0 then E._msize (c.released E) w.heap else 0))
          % 18446744073709551616 ∧
    ((w.thds thd).allocated_acc < 18446744073709551616 →
      ((c.call E thd w).2.thds thd).allocated_acc < 18446744073709551616) ∧
    ((w.thds thd).deallocated_acc < 18446744073709551616 →
      ((c.call E thd w).2.thds thd).deallocated_acc < 18446744073709551616) := by
  cases c with
  | malloc size =>
    simp only [MemCall.call, MemCall.released, malloc_def]
    cases hf : E.real_malloc with
    | none => simp
    | some f =>
      obtain ⟨a, b, c⟩ := alloc_shape_acc E thd "malloc" w (f size w.heap) hthd
      simp only [b, ne_eq, not_true_eq_false, if_false, Nat.add_zero]
      exact ⟨a, trivial, c, fun h => h⟩
  | calloc nmemb size =>
    cases hf : w.real_calloc with
    | none =>
      have := hboot hf
      cases hi : w.is_init_calloc with
      | false => simp [MemCall.call, MemCall.released, calloc_def, hf, hi]
      | true => simp [MemCall.call, MemCall.released, calloc_def, hf, hi, this hi]
    | some f =>
      obtain ⟨a, b, c⟩ := alloc_shape_acc E thd "calloc" w (f nmemb size w.heap) hthd
      have hc : MemHook.calloc E thd nmemb size w
          = ((f nmemb size w.heap).1, account_allocation E thd "calloc" (f nmemb size w.heap).1
              { w with heap := (f nmemb size w.heap).2 }) := by
        simp only [calloc_def, hf]
      simp only [MemCall.call, MemCall.released, hc, b, ne_eq, not_true_eq_false, if_false,
        Nat.add_zero]
      exact ⟨a, trivial, c, fun h => h⟩
  | posix_memalign memptr alignment size =>
    simp only [MemCall.call, MemCall.released, MemHook.posix_memalign]
    cases hf : E.real_posix_memalign with
    | none => simp
    | some f =>
      simp only
      by_cases hres : (f memptr alignment size w.heap).1.1 = 0
      · simp only [hres, if_true]
        obtain ⟨a, b⟩ := default_malloc_size_func_thds_true thd
          (E._msize (f memptr alignment size w.heap).1.2 (f memptr alignment size w.heap).2)
          { w with heap := (f memptr alignment size w.heap).2 } hthd
        have hh := (default_malloc_size_func_heap thd
          (E._msize (f memptr alignment size w.heap).1.2 (f memptr alignment size w.heap).2) true
          { w with heap := (f memptr alignment size w.heap).2 }).1
        simp only [a, b, hh]
        refine ⟨?_, by simp, fun _ => Nat.mod_lt _ (by decide), fun h => h⟩
        by_cases hp : (f memptr alignment size w.heap).1.2 = 0
        · simp [hp, h0]
        · simp [hp]
      · simp [hres]
  | aligned_alloc alignment size =>
    simp only [MemCall.call, MemCall.released, aligned_alloc_def]
    cases hf : E.real_aligned_alloc with
    | none => simp
    | some f =>
      obtain ⟨a, b, c⟩ := alloc_shape_acc E thd "aligned_alloc" w (f alignment size w.heap) hthd
      simp only [b, ne_eq, not_true_eq_false, if_false, Nat.add_zero]
      exact ⟨a, trivial, c, fun h => h⟩
  | memalign alignment size =>
    simp only [MemCall.call, MemCall.released, memalign_def]
    cases hf : E.real_memalign with
    | none => simp
    | some f =>
      obtain ⟨a, b, c⟩ := alloc_shape_acc E thd "memalign" w (f alignment size w.heap) hthd
      simp only [b, ne_eq, not_true_eq_false, if_false, Nat.add_zero]
      exact ⟨a, trivial, c, fun h => h⟩
  | valloc size =>
    simp only [MemCall.call, MemCall.released, valloc_def]
    cases hf : E.real_valloc with
    | none => simp
    | some f =>
      obtain ⟨a, b, c⟩ := alloc_shape_acc E thd "valloc" w (f size w.heap) hthd
      simp only [b, ne_eq, not_true_eq_false, if_false, Nat.add_zero]
      exact ⟨a, trivial, c, fun h => h⟩
  | pvalloc size =>
    simp only [MemCall.call, MemCall.released, pvalloc_def]
    cases hf : E.real_pvalloc with
    | none => simp
    | some f =>
      obtain ⟨a, b, c⟩ := alloc_shape_acc E thd "pvalloc" w (f size w.heap) hthd
      simp only [b, ne_eq, not_true_eq_false, if_false, Nat.add_zero]
      exact ⟨a, trivial, c, fun h => h⟩
  | free ptr =>
    simp only [MemCall.call, MemCall.released, MemHook.free]
    cases hf : E.real_free with
    | none => simp
    | some f =>
      by_cases hp : ptr = 0
      · simp [hp]
      · obtain ⟨a, b⟩ := default_malloc_size_func_thds_false thd (E._msize ptr w.heap) w hthd
        simp only [hp, ne_eq, not_false_eq_true, if_true, a, b, Option.isSome_some,
          not_true_eq_false, if_false, Nat.add_zero]
        exact ⟨trivial, by simp, fun h => h, fun _ => Nat.mod_lt _ (by decide)⟩

theorem MemCall.call_frame {H : Type} (E : Env H) (thd : Nat) (c : MemCall) (w : World H) :
    Frame w (c.call E thd w).2 := by
  cases c with
  | malloc size => exact malloc_frame E thd size w
  | calloc nmemb size => exact calloc_frame E thd nmemb size w
  | posix_memalign memptr alignment size => exact posix_memalign_frame E thd memptr alignment size w
  | aligned_alloc alignment size => exact aligned_alloc_frame E thd alignment size w
  | memalign alignment size => exact memalign_frame E thd alignment size w
  | valloc size => exact valloc_frame E thd size w
  | pvalloc size => exact pvalloc_frame E thd size w
  | free ptr => exact free_frame E thd ptr w

theorem run_calls_acc {H : Type} (E : Env H) (thd : Nat) (calls : List MemCall) (w : World H)
    (hthd : thd ≠ 0) (h0 : ∀ h, E._msize 0 h = 0)
    (hboot : w.real_calloc = none → w.is_init_calloc = true →
      w.is_gather_calloc_ptr_error = true) :
    ((run_calls E thd calls w).thds thd).allocated_acc % 18446744073709551616
      = ((w.thds thd).allocated_acc + allocated_sum E thd calls w) % 18446744073709551616 ∧
    ((run_calls E thd calls w).thds thd).deallocated_acc % 18446744073709551616
      = ((w.thds thd).deallocated_acc + released_sum E thd calls w) % 18446744073709551616 ∧
    ((w.thds thd).allocated_acc < 18446744073709551616 →
      ((run_calls E thd calls w).thds thd).allocated_acc < 18446744073709551616) ∧
    ((w.thds thd).deallocated_acc < 18446744073709551616 →
      ((run_calls E thd calls w).thds thd).deallocated_acc < 18446744073709551616) := by
  induction calls generalizing w with
  | nil => simp [run_calls, allocated_sum, released_sum]
  | cons c cs ih =>
    obtain ⟨a1, d1, ab1, db1⟩ := c.call_acc E thd w hthd h0 hboot
    obtain ⟨_, f1, f2, f3, _⟩ := c.call_frame E thd w
    have hboot1 : (c.call E thd w).2.real_calloc = none → (c.call E thd w).2.is_init_calloc = true →
        (c.call E thd w).2.is_gather_calloc_ptr_error = true := by
      rw [f1, f2, f3]; exact hboot
    obtain ⟨a2, d2, ab2, db2⟩ := ih (c.call E thd w).2 hboot1
    simp only [run_calls, allocated_sum, released_sum]
    refine ⟨?_, ?_, fun h => ab2 (ab1 h), fun h => db2 (db1 h)⟩
    · omega
    · omega

/-- C1: on a thread that owns a descriptor (`thd` non-null) whose two
accumulators were just reset, after any sequence of calls of `malloc`,
`calloc`, `posix_memalign`, `aligned_alloc`, `memalign`, `valloc`, `pvalloc`
and `free`, `allocated_acc` is the sum of the usable sizes of the non-null
blocks the calls returned and `deallocated_acc` the sum of the usable sizes of
the non-null blocks released, both as `uint64_t` values (modulo `2^64`); so
`allocated_acc - deallocated_acc` is the difference of the two sums modulo
`2^64`, and exactly that difference when both sums are below `2^64`.  Calls
that return null and `free(NULL)` add nothing to either sum.  The usable size
of the null pointer is taken to be 0, and the `calloc` lookup is not in
flight. -/
theorem C1_accumulators_match_usable_sizes {H : Type} (E : Env H) (thd : Nat)
    (calls : List MemCall) (w : World H)
    (hthd : thd ≠ 0) (h0 : ∀ h, E._msize 0 h = 0)
    (hboot : w.real_calloc = none → w.is_init_calloc = true →
      w.is_gather_calloc_ptr_error = true)
    (hreset : (w.thds thd).allocated_acc = 0 ∧ (w.thds thd).deallocated_acc = 0) :
    ((run_calls E thd calls w).thds thd).allocated_acc
      = allocated_sum E thd calls w % 18446744073709551616 ∧
    ((run_calls E thd calls w).thds thd).deallocated_acc
      = released_sum E thd calls w % 18446744073709551616 ∧
    ((((run_calls E thd calls w).thds thd).allocated_acc : Int)
        - ((run_calls E thd calls w).thds thd).deallocated_acc) % 18446744073709551616
      = ((allocated_sum E thd calls w : Int) - released_sum E thd calls w)
        % 18446744073709551616 ∧
    (allocated_sum E thd calls w < 18446744073709551616 →
      released_sum E thd calls w < 18446744073709551616 →
      (((run_calls E thd calls w).thds thd).allocated_acc : Int)
          - ((run_calls E thd calls w).thds thd).deallocated_acc
        = (allocated_sum E thd calls w : Int) - released_sum E thd calls w) := by
  obtain ⟨a, d, ab, db⟩ := run_calls_acc E thd calls w hthd h0 hboot
  obtain ⟨ha, hd⟩ := hreset
  rw [ha] at a ab
  rw [hd] at d db
  have ab1 := ab (by decide)
  have db1 := db (by decide)
  refine ⟨by omega, by omega, by omega, ?_⟩
  intro h1 h2
  omega

/-- C1 at the recording allocator: two blocks of usable size 40 are returned
and one of them is released. -/
theorem C1_witness :
    (((run_calls rec_env 1048576
        [MemCall.malloc 100, MemCall.free 4096, MemCall.free 0, MemCall.calloc 1 8,
          MemCall.valloc 8]
        (World.init [])).thds 1048576).allocated_acc
      = allocated_sum rec_env 1048576
          [MemCall.malloc 100, MemCall.free 4096, MemCall.free 0, MemCall.calloc 1 8,
            MemCall.valloc 8]
          (World.init []) % 18446744073709551616) ∧
    allocated_sum rec_env 1048576
      [MemCall.malloc 100, MemCall.free 4096, MemCall.free 0, MemCall.calloc 1 8,
        MemCall.valloc 8]
      (World.init []) = 80 ∧
    released_sum rec_env 1048576
      [MemCall.malloc 100, MemCall.free 4096, MemCall.free 0, MemCall.calloc 1 8,
        MemCall.valloc 8]
      (World.init []) = 40 :=
  ⟨(C1_accumulators_match_usable_sizes rec_env 1048576
      [MemCall.malloc 100, MemCall.free 4096, MemCall.free 0, MemCall.calloc 1 8,
        MemCall.valloc 8]
      (World.init []) (by decide) (fun _ => rfl) (fun _ h => absurd h (by decide))
      ⟨rfl, rfl⟩).1,
   by decide, by decide⟩

theorem add_allocate_addr_counter (type : String) (point : Nat) (t : ThrStorage) :
    (t.add_allocate_addr type point).process_mem_used_ = t.process_mem_used_ := by
  unfold ThrStorage.add_allocate_addr
  dsimp only
  split_ifs <;> rfl

theorem default_malloc_size_func_counter {H : Type} (thd size : Nat) (b : Bool) (w : World H) :
    (default_malloc_size_func thd size b w).storage.process_mem_used_
      = toInt64 (w.storage.process_mem_used_
          + toInt64 (if b = true then (size % 18446744073709551616 : Nat) else size_neg size)) := by
  unfold default_malloc_size_func fetch_add_allocated fetch_add_deallocated
    ThrStorage.add_process_mem_used
  dsimp only
  split_ifs <;> rfl

theorem toInt64_congr (x : Int) : (toInt64 x - x) % 18446744073709551616 = 0 := by
  unfold toInt64
  omega

theorem mem_set_erase (x y : Nat) (l : List Nat) : y ∈ set_erase x l ↔ y ∈ l ∧ y ≠ x := by
  simp [set_erase]

theorem set_insert_sorted (x : Nat) (l : List Nat) (h : l.Pairwise (· < ·)) :
    (set_insert x l).Pairwise (· < ·) := by
  induction l with
  | nil => simp [set_insert]
  | cons y ys ih =>
    obtain ⟨h1, h2⟩ := List.pairwise_cons.mp h
    unfold set_insert
    split_ifs with c1 c2
    · refine List.pairwise_cons.mpr ⟨?_, h⟩
      intro z hz
      rcases List.mem_cons.mp hz with e | e
      · rw [e]; exact c1
      · exact lt_trans c1 (h1 z e)
    · exact h
    · refine List.pairwise_cons.mpr ⟨?_, ih h2⟩
      intro z hz
      rcases (mem_set_insert x z ys).mp hz with e | e
      · rw [e]; omega
      · exact h1 z e

theorem set_erase_sorted (x : Nat) (l : List Nat) (h : l.Pairwise (· < ·)) :
    (set_erase x l).Pairwise (· < ·) :=
  List.Pairwise.filter _ h

theorem sorted_nodup (l : List Nat) (h : l.Pairwise (· < ·)) : l.Nodup :=
  h.imp (fun hab => Nat.ne_of_lt hab)

theorem thr_register_registered {H : Type} (p tid : Nat) (w : World H) :
    p ∈ (thr_register p tid w).thd_list_ ∧ ((thr_register p tid w).thds p).thread_id = tid := by
  unfold thr_register add_thread_thd
  dsimp only
  by_cases h : p ∈ w.thd_list_
  · simp [h]
  · simp [h, mem_set_insert]

theorem thr_register_keeps {H : Type} (p q tid tid1 : Nat) (w : World H) (hq : q ≠ p)
    (h : p ∈ w.thd_list_ ∧ (w.thds p).thread_id = tid) :
    p ∈ (thr_register q tid1 w).thd_list_ ∧ ((thr_register q tid1 w).thds p).thread_id = tid := by
  unfold thr_register add_thread_thd
  dsimp only
  have hpq : p ≠ q := fun e => hq e.symm
  by_cases hm : q ∈ w.thd_list_
  · simp [hm, h.1, h.2, Function.update_noteq hpq]
  · simp [hm, h.1, h.2, Function.update_noteq hpq, mem_set_insert]

theorem remove_thread_thd_keeps {H : Type} (p q tid : Nat) (w : World H) (hq : q ≠ p)
    (h : p ∈ w.thd_list_ ∧ (w.thds p).thread_id = tid) :
    p ∈ (remove_thread_thd q w).thd_list_ ∧ ((remove_thread_thd q w).thds p).thread_id = tid := by
  unfold remove_thread_thd
  dsimp only
  have hpq : p ≠ q := fun e => hq e.symm
  by_cases hm : q ∈ w.thd_list_
  · simp [hm, h.1, h.2, mem_set_erase, hpq]
  · simp [hm, h.1, h.2]

theorem remove_thread_thd_removed {H : Type} (p : Nat) (w : World H) :
    p ∉ (remove_thread_thd p w).thd_list_ := by
  unfold remove_thread_thd
  dsimp only
  by_cases hm : p ∈ w.thd_list_
  · simp [hm, mem_set_erase]
  · simp [hm]

theorem Frame.keeps {H : Type} {w w1 : World H} (hf : Frame w w1) (p tid : Nat)
    (h : p ∈ w.thd_list_ ∧ (w.thds p).thread_id = tid) :
    p ∈ w1.thd_list_ ∧ (w1.thds p).thread_id = tid := by
  obtain ⟨a, _, _, _, e⟩ := hf
  rw [a, e p]
  exact h

theorem exec_frame {H : Type} (E : Env H) (self : Nat) (op : Op) (w : World H)
    (hop : ∀ p, op.touches p = false) : Frame w (exec E self op w) := by
  cases op with
  | malloc who size => exact malloc_frame E _ size w
  | calloc who nmemb size => exact calloc_frame E _ nmemb size w
  | realloc who ptr size => exact realloc_frame E _ ptr size w
  | reallocarray who ptr nmemb size => exact reallocarray_frame E _ ptr nmemb size w
  | posix_memalign who memptr alignment size =>
    exact posix_memalign_frame E _ memptr alignment size w
  | aligned_alloc who alignment size => exact aligned_alloc_frame E _ alignment size w
  | memalign who alignment size => exact memalign_frame E _ alignment size w
  | valloc who size => exact valloc_frame E _ size w
  | pvalloc who size => exact pvalloc_frame E _ size w
  | free who ptr => exact free_frame E _ ptr w
  | pthread_create who thread attr start_routine arg =>
    exact pthread_create_frame E _ thread attr start_routine arg w
  | get_all_threads_mem_info => exact get_all_threads_mem_info_frame w
  | get_process_mem_used => exact Frame.rfl w
  | thr_register tmp_thd tid => exact absurd (hop tmp_thd) (by simp [Op.touches])
  | thr_unregister tmp_thd => exact absurd (hop tmp_thd) (by simp [Op.touches])

theorem exec_keeps {H : Type} (E : Env H) (self : Nat) (op : Op) (w : World H) (p tid : Nat)
    (hop : op.touches p = false) (h : p ∈ w.thd_list_ ∧ (w.thds p).thread_id = tid) :
    p ∈ (exec E self op w).thd_list_ ∧ ((exec E self op w).thds p).thread_id = tid := by
  cases op with
  | thr_register tmp_thd tid1 =>
    exact thr_register_keeps p tmp_thd tid tid1 w (by simpa [Op.touches] using hop) h
  | thr_unregister tmp_thd =>
    exact remove_thread_thd_keeps p tmp_thd tid w (by simpa [Op.touches] using hop) h
  | _ =>
    refine Frame.keeps (exec_frame E self _ w ?_) p tid h
    intro _
    rfl

theorem run_keeps {H : Type} (E : Env H) (self : Nat) (ops : List Op) (w : World H) (p tid : Nat)
    (hops : ∀ op ∈ ops, op.touches p = false)
    (h : p ∈ w.thd_list_ ∧ (w.thds p).thread_id = tid) :
    p ∈ (run E self ops w).thd_list_ ∧ ((run E self ops w).thds p).thread_id = tid := by
  induction ops generalizing w with
  | nil => exact h
  | cons op ops ih =>
    exact ih (exec E self op w) (fun o ho => hops o (List.mem_cons_of_mem _ ho))
      (exec_keeps E self op w p tid (hops op (List.mem_cons_self _ _)) h)

theorem exec_sorted {H : Type} (E : Env H) (self : Nat) (op : Op) (w : World H)
    (h : w.thd_list_.Pairwise (· < ·)) : (exec E self op w).thd_list_.Pairwise (· < ·) := by
  by_cases hop : ∀ p, op.touches p = false
  · rw [(exec_frame E self op w hop).1]; exact h
  · cases op with
    | thr_register tmp_thd tid =>
      simp only [exec, thr_register, add_thread_thd]
      split_ifs
      · exact set_insert_sorted _ _ h
      · exact h
    | thr_unregister tmp_thd =>
      simp only [exec, remove_thread_thd]
      split_ifs
      · exact set_erase_sorted _ _ h
      · exact h
    | _ => exact absurd (fun _ => rfl) hop

theorem run_sorted {H : Type} (E : Env H) (self : Nat) (ops : List Op) (w : World H)
    (h : w.thd_list_.Pairwise (· < ·)) : (run E self ops w).thd_list_.Pairwise (· < ·) := by
  induction ops generalizing w with
  | nil => exact h
  | cons op ops ih => exact ih (exec E self op w) (exec_sorted E self op w h)

theorem thr_func_enter_registered {H : Type} (E : Env H) (tid : Nat) (w : World H)
    (h : (thr_func_enter E tid w).1 ≠ 0) :
    (thr_func_enter E tid w).1 ∈ (thr_func_enter E tid w).2.thd_list_ ∧
    ((thr_func_enter E tid w).2.thds (thr_func_enter E tid w).1).thread_id = tid := by
  unfold thr_func_enter at h ⊢
  dsimp only at h ⊢
  by_cases hp : (malloc E 0 24 w).1 = 0
  · simp [hp] at h
  · simp only [hp, ne_eq, not_false_eq_true, if_true]
    exact thr_register_registered _ tid _

theorem thr_func_exit_unregistered {H : Type} (E : Env H) (p arg : Nat) (w : World H)
    (hp : p ≠ 0) : p ∉ (thr_func_exit E p arg w).thd_list_ := by
  unfold thr_func_exit
  simp only [hp, ne_eq, not_false_eq_true, if_true]
  rw [(free_frame E p p _).1]
  exact remove_thread_thd_removed p _

/-- C9: let `thr_func` run on thread `tid`, let its descriptor allocation
succeed with `tmp_thd = p`, and let the start routine run as the calls `ops`
(of this and other threads, none of which registers or unregisters `p`) and
return `res`.  Then after every prefix of `ops`, so during the whole run of
the start routine, `p` is in the registry set and the map returned by
`get_all_threads_mem_info` has the key `tid`.  Once `thr_func` has returned,
`p` is not in the registry set, and when no registered descriptor carries the
id `tid` the map returned by `get_all_threads_mem_info` has no key `tid`.
The value `thr_func` returns is `res`. -/
theorem C9_descriptor_registered_while_routine_runs {H : Type} (E : Env H) (tid arg : Nat)
    (w : World H) (p : Nat) (w1 : World H) (ops : List Op) (res : Nat)
    (henter : thr_func_enter E tid w = (p, w1)) (hp : p ≠ 0)
    (hroutine : E.start_routine (w1.mem arg) (w1.mem (arg + 8)) = (ops, res))
    (hothers : ∀ op ∈ ops, op.touches p = false) :
    (∀ n, p ∈ (run E p (ops.take n) w1).thd_list_ ∧
      tid ∈ map_keys (get_all_threads_mem_info (run E p (ops.take n) w1)).1) ∧
    thr_func E tid arg w = (res, thr_func_exit E p arg (run E p ops w1)) ∧
    p ∉ (thr_func E tid arg w).2.thd_list_ ∧
    ((∀ x ∈ (thr_func E tid arg w).2.thd_list_,
        ((thr_func E tid arg w).2.thds x).thread_id ≠ tid) →
      tid ∉ map_keys (get_all_threads_mem_info (thr_func E tid arg w).2).1) ∧
    (thr_func E tid arg w).1 = res := by
  have hreg := thr_func_enter_registered E tid w (by rw [henter]; exact hp)
  rw [henter] at hreg
  have hfun : thr_func E tid arg w = (res, thr_func_exit E p arg (run E p ops w1)) := by
    unfold thr_func
    simp only [henter, hroutine]
  refine ⟨?_, hfun, ?_, ?_, ?_⟩
  · intro n
    have hk := run_keeps E p (ops.take n) w1 p tid
      (fun op hop => hothers op (List.mem_of_mem_take hop)) hreg
    exact ⟨hk.1, (snapshot_keys_iff _ tid).mpr ⟨p, hk.1, hk.2⟩⟩
  · rw [hfun]
    exact thr_func_exit_unregistered E p arg _ hp
  · intro hno hmem
    obtain ⟨x, hx, hxt⟩ := (snapshot_keys_iff _ tid).mp hmem
    exact hno x hx hxt
  · rw [hfun]

/-- C9 at the recording allocator, on thread 5: the descriptor is the block at
4096 and the start routine returns 77. -/
theorem C9_witness :
    (∀ n, 4096 ∈ (run rec_env 4096
          ((rec_env.start_routine 0 0).1.take n)
          (thr_func_enter rec_env 5 (World.init [])).2).thd_list_ ∧
      5 ∈ map_keys (get_all_threads_mem_info (run rec_env 4096
          ((rec_env.start_routine 0 0).1.take n)
          (thr_func_enter rec_env 5 (World.init [])).2)).1) ∧
    4096 ∉ (thr_func rec_env 5 0 (World.init [])).2.thd_list_ ∧
    (thr_func rec_env 5 0 (World.init [])).1 = 77 :=
  ⟨(C9_descriptor_registered_while_routine_runs rec_env 5 0 (World.init []) 4096
      (thr_func_enter rec_env 5 (World.init [])).2 (rec_env.start_routine 0 0).1 77
      rfl (by decide) rfl (by decide)).1,
   (C9_descriptor_registered_while_routine_runs rec_env 5 0 (World.init []) 4096
      (thr_func_enter rec_env 5 (World.init [])).2 (rec_env.start_routine 0 0).1 77
      rfl (by decide) rfl (by decide)).2.2.1,
   (C9_descriptor_registered_while_routine_runs rec_env 5 0 (World.init []) 4096
      (thr_func_enter rec_env 5 (World.init [])).2 (rec_env.start_routine 0 0).1 77
      rfl (by decide) rfl (by decide)).2.2.2.2⟩

/-- A resize that fails or returns the original address accounts nothing. -/
theorem account_resize_not_moved {H : Type} (E : Env H) (thd : Nat) (type : String)
    (ptr origin_size new_ptr : Nat) (w : World H) (h : new_ptr = ptr ∨ new_ptr = 0) :
    account_resize E thd type ptr origin_size new_ptr w = w := by
  unfold account_resize
  rcases h with h | h
  · by_cases h0 : new_ptr = 0
    · simp [h0]
    · simp [h0, h]
  · simp [h]

/-- A resize that moves the block accounts the growth of the usable size
exactly when the growth is below `2^31`, and accounts nothing when the usable
size shrinks by at most `2^31`: the cases in which the difference fits `int`. -/
theorem account_resize_in_int_range {H : Type} (E : Env H) (thd : Nat) (type : String)
    (ptr origin_size new_ptr : Nat) (w : World H)
    (hnew : new_ptr ≠ 0) (hmoved : new_ptr ≠ ptr) (hthd : thd ≠ 0)
    (hs1 : origin_size < 18446744073709551616)
    (hs2 : E._msize new_ptr w.heap < 18446744073709551616) :
    (origin_size < E._msize new_ptr w.heap →
      E._msize new_ptr w.heap - origin_size < 2147483648 →
      ((account_resize E thd type ptr origin_size new_ptr w).thds thd).allocated_acc
        = ((w.thds thd).allocated_acc + (E._msize new_ptr w.heap - origin_size))
          % 18446744073709551616 ∧
      (account_resize E thd type ptr origin_size new_ptr w).storage.process_mem_used_
        = toInt64 (w.storage.process_mem_used_ + (E._msize new_ptr w.heap - origin_size : Nat))) ∧
    (E._msize new_ptr w.heap ≤ origin_size →
      origin_size - E._msize new_ptr w.heap ≤ 2147483648 →
      account_resize E thd type ptr origin_size new_ptr w = w) := by
  constructor
  · intro hlt hsmall
    have hfs : toInt32 (size_sub (E._msize new_ptr w.heap) origin_size)
        = ((E._msize new_ptr w.heap - origin_size : Nat) : Int) := by
      unfold toInt32 size_sub
      omega
    have hpos : toInt32 (size_sub (E._msize new_ptr w.heap) origin_size) > 0 := by
      rw [hfs]; omega
    unfold account_resize
    simp only [hnew, hmoved, ne_eq, not_false_eq_true, if_true, hpos]
    rw [add_allocate_addr_counter, default_malloc_size_func_counter, hfs, Int.toNat_ofNat]
    refine ⟨(default_malloc_size_func_thds_true thd _ w hthd).1, ?_⟩
    simp only [if_true]
    unfold toInt64
    omega
  · intro hle hsmall
    have hneg : ¬ toInt32 (size_sub (E._msize new_ptr w.heap) origin_size) > 0 := by
      unfold toInt32 size_sub
      omega
    unfold account_resize
    simp only [hnew, hmoved, ne_eq, not_false_eq_true, if_true, hneg, if_false]

end MemHook
